/-
Verification of the remote session gateway of the parallel-code repository.

The definitions below are a shallow embedding of the TypeScript sources:
  * `electron/remote/refresh-session-store.ts`  (RefreshSessionStore)
  * `electron/remote/rotating-token-store.ts`   (RotatingTokenStore)
  * `electron/remote/server.ts`                 (HTTP + WebSocket gateway)

Modelling conventions:
  * `Date.now()` timestamps are `Int` milliseconds; the injected `now()` seam of
    the stores becomes an explicit `now : Int` argument.
  * The injected `issueToken()` generator becomes a function `gen : Nat → String`
    together with a counter `genIdx`, mirroring the deterministic generators the
    repository's own tests inject (`token-${"i"}` counters).
  * Buffers compared with `timingSafeEqual` after a length check are modelled as
    `String` values compared for equality (equal length + equal bytes).
  * JavaScript array `splice(0, k)` is `List.drop k`; reverse-iteration deletion
    of expired entries is `List.filter`.
-/
import Mathlib

namespace ParallelCode

/-! ## RefreshSessionStore (`electron/remote/refresh-session-store.ts`) -/

/-- One stored refresh credential: `{ tokenBuf, expiresAt }`. -/
structure RefreshEntry where
  token : String
  expiresAt : Int
deriving Repr, DecidableEq

/-- State of `createRefreshSessionStore`: the options, the `entries` array and
the injected token generator (`issueToken`) with its call counter. -/
structure RefreshSessionStore where
  ttlMs : Int
  maxTokens : Nat
  entries : List RefreshEntry
  gen : Nat → String
  genIdx : Nat

/-- Token strings currently stored. -/
def tokensOf (l : List RefreshEntry) : List String :=
  l.map RefreshEntry.token

/-- Body of `prune()`: delete every entry with `nowMs > entry.expiresAt`. -/
def pruneEntries (now : Int) (l : List RefreshEntry) : List RefreshEntry :=
  l.filter (fun e => decide (now ≤ e.expiresAt))

/-- `prune()` of the refresh store. -/
def RefreshSessionStore.prune (s : RefreshSessionStore) (now : Int) : RefreshSessionStore :=
  { s with entries := pruneEntries now s.entries }

/-- `issue()`: prune, mint a token, push it with `now + ttlMs`, then evict the
oldest entries past the cap (`entries.splice(0, entries.length - maxTokens)`). -/
def RefreshSessionStore.issue (s : RefreshSessionStore) (now : Int) :
    String × RefreshSessionStore :=
  let pruned := pruneEntries now s.entries
  let token := s.gen s.genIdx
  let pushed := pruned ++ [⟨token, now + s.ttlMs⟩]
  let kept := if s.maxTokens < pushed.length then pushed.drop (pushed.length - s.maxTokens)
    else pushed
  (token, { s with entries := kept, genIdx := s.genIdx + 1 })

/-- The scan-and-splice of `exchange()`: find the first live entry whose token
equals the candidate and remove it, or report that none matched. -/
def consume (now : Int) (c : String) : List RefreshEntry → Option (List RefreshEntry)
  | [] => none
  | e :: rest =>
    if now ≤ e.expiresAt ∧ e.token = c then some rest
    else (consume now c rest).map (fun l => e :: l)

/-- `exchange(candidate)`: falsy candidates are rejected outright; otherwise
prune, scan live entries for a timing-safe match, and on a hit remove the entry
and return the result of `issue()`. -/
def RefreshSessionStore.exchange (s : RefreshSessionStore) (cand : Option String)
    (now : Int) : Option String × RefreshSessionStore :=
  match cand with
  | none => (none, s)
  | some c =>
    if c = "" then (none, s)
    else
      let s1 := { s with entries := pruneEntries now s.entries }
      match consume now c s1.entries with
      | none => (none, s1)
      | some rest =>
        let s2 := { s1 with entries := rest }
        let issued := s2.issue now
        (some issued.1, issued.2)

/-- `count()`: live entry count for diagnostics. -/
def RefreshSessionStore.count (s : RefreshSessionStore) : Nat :=
  s.entries.length

example :
    let s : RefreshSessionStore :=
      { ttlMs := 50, maxTokens := 4, entries := [], gen := fun i => "r".pushn 'x' i,
        genIdx := 0 }
    let r0 := s.issue 0
    let r1 := r0.2.exchange (some r0.1) 0
    let r2 := r1.2.exchange (some r0.1) 0
    r0.1 = "r" ∧ r1.1 = some "rx" ∧ r2.1 = none := by decide

/-! ### Supporting lemmas about the refresh store -/

@[simp] theorem tokensOf_nil : tokensOf [] = [] := rfl

@[simp] theorem tokensOf_cons (e : RefreshEntry) (l : List RefreshEntry) :
    tokensOf (e :: l) = e.token :: tokensOf l := rfl

@[simp] theorem tokensOf_append (l₁ l₂ : List RefreshEntry) :
    tokensOf (l₁ ++ l₂) = tokensOf l₁ ++ tokensOf l₂ :=
  List.map_append _ _ _

theorem mem_tokensOf {l : List RefreshEntry} {e : RefreshEntry} (he : e ∈ l) :
    e.token ∈ tokensOf l :=
  List.mem_map_of_mem _ he

theorem mem_tokensOf_iff {l : List RefreshEntry} {c : String} :
    c ∈ tokensOf l ↔ ∃ e ∈ l, e.token = c := by
  simp [tokensOf, List.mem_map]

theorem pruneEntries_live (now : Int) (l : List RefreshEntry) :
    ∀ e ∈ pruneEntries now l, now ≤ e.expiresAt := by
  intro e he
  simpa using (List.mem_filter.1 he).2

theorem pruneEntries_eq_self (now : Int) (l : List RefreshEntry)
    (h : ∀ e ∈ l, now ≤ e.expiresAt) : pruneEntries now l = l :=
  List.filter_eq_self.2 fun e he => by simpa using h e he

theorem pruneEntries_sublist (now : Int) (l : List RefreshEntry) :
    (pruneEntries now l).Sublist l :=
  List.filter_sublist l

theorem mem_pruneEntries (now : Int) (l : List RefreshEntry) (e : RefreshEntry)
    (he : e ∈ l) (hl : now ≤ e.expiresAt) : e ∈ pruneEntries now l :=
  List.mem_filter.2 ⟨he, by simpa using hl⟩

theorem tokensOf_sublist {l₁ l₂ : List RefreshEntry} (h : l₁.Sublist l₂) :
    (tokensOf l₁).Sublist (tokensOf l₂) :=
  h.map _

theorem consume_isSome_iff (now : Int) (c : String) (l : List RefreshEntry) :
    (consume now c l).isSome ↔ ∃ e ∈ l, now ≤ e.expiresAt ∧ e.token = c := by
  induction l with
  | nil => simp [consume]
  | cons e rest ih =>
    by_cases h : now ≤ e.expiresAt ∧ e.token = c
    · simp only [consume, if_pos h, Option.isSome_some, true_iff]
      exact ⟨e, List.mem_cons_self e rest, h⟩
    · simp only [consume, if_neg h, Option.isSome_map']
      rw [ih]
      constructor
      · rintro ⟨x, hx, hp⟩
        exact ⟨x, List.mem_cons_of_mem _ hx, hp⟩
      · rintro ⟨x, hx, hp⟩
        rcases List.mem_cons.1 hx with rfl | hx
        · exact absurd hp h
        · exact ⟨x, hx, hp⟩

theorem consume_sublist (now : Int) (c : String) :
    ∀ {l r : List RefreshEntry}, consume now c l = some r → r.Sublist l := by
  intro l
  induction l with
  | nil => intro r h; simp [consume] at h
  | cons e rest ih =>
    intro r h
    by_cases hp : now ≤ e.expiresAt ∧ e.token = c
    · simp only [consume, if_pos hp, Option.some.injEq] at h
      exact h ▸ List.sublist_cons_self e rest
    · simp only [consume, if_neg hp, Option.map_eq_some'] at h
      obtain ⟨r', hr', rfl⟩ := h
      exact (ih hr').cons₂ e

theorem consume_not_mem (now : Int) (c : String) :
    ∀ {l r : List RefreshEntry}, (∀ e ∈ l, now ≤ e.expiresAt) →
      (tokensOf l).Nodup → consume now c l = some r → c ∉ tokensOf r := by
  intro l
  induction l with
  | nil => intro r _ _ h; simp [consume] at h
  | cons e rest ih =>
    intro r hl hnd h
    have hnd' := List.nodup_cons.1 (by simpa using hnd)
    by_cases hp : now ≤ e.expiresAt ∧ e.token = c
    · simp only [consume, if_pos hp, Option.some.injEq] at h
      subst h
      exact fun hc => hnd'.1 (hp.2 ▸ hc)
    · simp only [consume, if_neg hp, Option.map_eq_some'] at h
      obtain ⟨r', hr', rfl⟩ := h
      intro hc
      rcases List.mem_cons.1 (by simpa using hc) with hc' | hc'
      · exact hp ⟨hl e (List.mem_cons_self e rest), hc'.symm⟩
      · exact ih (fun x hx => hl x (List.mem_cons_of_mem _ hx)) hnd'.2 hr' hc'

theorem exchange_hit_fst (s : RefreshSessionStore) (c : String) (now : Int)
    (hne : c ≠ "") (he : ∃ e ∈ s.entries, now ≤ e.expiresAt ∧ e.token = c) :
    (s.exchange (some c) now).1 = some (s.gen s.genIdx) := by
  obtain ⟨e, hmem, hliv, htok⟩ := he
  have hmem' : e ∈ pruneEntries now s.entries := mem_pruneEntries _ _ _ hmem hliv
  obtain ⟨r, hr⟩ := Option.isSome_iff_exists.1
    ((consume_isSome_iff _ _ _).2 ⟨e, hmem', hliv, htok⟩)
  simp [RefreshSessionStore.exchange, hne, hr, RefreshSessionStore.issue]

theorem exchange_fst_eq_none_of_not_mem (s : RefreshSessionStore) (c : String)
    (now : Int) (h : c ∉ tokensOf s.entries) :
    (s.exchange (some c) now).1 = none := by
  by_cases hne : c = ""
  · simp [RefreshSessionStore.exchange, hne]
  · have hcon : consume now c (pruneEntries now s.entries) = none := by
      cases hc : consume now c (pruneEntries now s.entries) with
      | none => rfl
      | some r =>
        have hsome : (consume now c (pruneEntries now s.entries)).isSome := by
          simp [hc]
        obtain ⟨e, hm, _, htok⟩ := (consume_isSome_iff _ _ _).1 hsome
        exact absurd
          ((tokensOf_sublist (pruneEntries_sublist _ _)).subset (htok ▸ mem_tokensOf hm)) h
    simp [RefreshSessionStore.exchange, hne, hcon]

theorem exchange_hit_spec (s : RefreshSessionStore) (c : String) (now : Int)
    (hmax : 1 ≤ s.maxTokens) (hne : c ≠ "")
    (he : ∃ e ∈ s.entries, now ≤ e.expiresAt ∧ e.token = c)
    (hnd : (tokensOf s.entries).Nodup) :
    ∃ s', s.exchange (some c) now = (some (s.gen s.genIdx), s') ∧
      s'.gen = s.gen ∧ s'.genIdx = s.genIdx + 1 ∧ s'.maxTokens = s.maxTokens ∧
      s'.ttlMs = s.ttlMs ∧
      (⟨s.gen s.genIdx, now + s.ttlMs⟩ : RefreshEntry) ∈ s'.entries ∧
      ∀ t ∈ tokensOf s'.entries, t = s.gen s.genIdx ∨ (t ∈ tokensOf s.entries ∧ t ≠ c) := by
  obtain ⟨e, hmem, hliv, htok⟩ := he
  have hmem' : e ∈ pruneEntries now s.entries := mem_pruneEntries _ _ _ hmem hliv
  obtain ⟨r, hr⟩ := Option.isSome_iff_exists.1
    ((consume_isSome_iff _ _ _).2 ⟨e, hmem', hliv, htok⟩)
  have hrsub : r.Sublist (pruneEntries now s.entries) := consume_sublist _ _ hr
  have hrlive : ∀ x ∈ r, now ≤ x.expiresAt := fun x hx =>
    pruneEntries_live _ _ x (hrsub.subset hx)
  have hprr : pruneEntries now r = r := pruneEntries_eq_self _ _ hrlive
  have hcr : c ∉ tokensOf r :=
    consume_not_mem _ _ (pruneEntries_live _ _)
      ((tokensOf_sublist (pruneEntries_sublist _ _)).nodup hnd) hr
  have hkept :
      ((r ++ [(⟨s.gen s.genIdx, now + s.ttlMs⟩ : RefreshEntry)]).drop
          ((r ++ [(⟨s.gen s.genIdx, now + s.ttlMs⟩ : RefreshEntry)]).length - s.maxTokens)
        ).Sublist (r ++ [⟨s.gen s.genIdx, now + s.ttlMs⟩]) :=
    List.drop_sublist _ _
  refine ⟨{ s with
      entries :=
        if s.maxTokens < (r ++ [(⟨s.gen s.genIdx, now + s.ttlMs⟩ : RefreshEntry)]).length then
          (r ++ [(⟨s.gen s.genIdx, now + s.ttlMs⟩ : RefreshEntry)]).drop
            ((r ++ [(⟨s.gen s.genIdx, now + s.ttlMs⟩ : RefreshEntry)]).length - s.maxTokens)
        else r ++ [⟨s.gen s.genIdx, now + s.ttlMs⟩],
      genIdx := s.genIdx + 1 }, ?_, rfl, rfl, rfl, rfl, ?_, ?_⟩
  · simp only [RefreshSessionStore.exchange, if_neg hne, hr, RefreshSessionStore.issue, hprr]
  · by_cases hov : s.maxTokens < (r ++ [(⟨s.gen s.genIdx, now + s.ttlMs⟩ : RefreshEntry)]).length
    · simp only [if_pos hov]
      have hlen : (r ++ [(⟨s.gen s.genIdx, now + s.ttlMs⟩ : RefreshEntry)]).length - s.maxTokens
          ≤ r.length := by
        simp only [List.length_append, List.length_singleton]
        omega
      rw [List.drop_append_of_le_length hlen]
      exact List.mem_append_right _ (List.mem_singleton.2 rfl)
    · simp only [if_neg hov]
      exact List.mem_append_right _ (List.mem_singleton.2 rfl)
  · intro t ht
    have hsub : t ∈ tokensOf (r ++ [⟨s.gen s.genIdx, now + s.ttlMs⟩]) := by
      by_cases hov : s.maxTokens < (r ++ [(⟨s.gen s.genIdx, now + s.ttlMs⟩ : RefreshEntry)]).length
      · rw [if_pos hov] at ht
        exact (tokensOf_sublist hkept).subset ht
      · rw [if_neg hov] at ht
        exact ht
    rw [tokensOf_append] at hsub
    rcases List.mem_append.1 hsub with h1 | h1
    · right
      refine ⟨(tokensOf_sublist (hrsub.trans (pruneEntries_sublist _ _))).subset h1, ?_⟩
      intro h2
      exact hcr (h2 ▸ h1)
    · left
      simpa using h1

/-- C1. Refresh tokens are single-use: a live stored token `T` is consumed by
its first `exchange`, which returns a distinct replacement `T'`; `exchange(T)`
afterwards returns none, and `exchange(T')` succeeds with a further fresh token,
so exchanges chain.  The hypotheses say that the injected token generator only
produces fresh, non-empty, pairwise-distinct tokens — true of the random
`randomBytes(24).toString("base64url")` default and of the counter generators
the repository's tests inject. -/
theorem refresh_tokens_single_use
    (s : RefreshSessionStore) (T : String) (now : Int)
    (hmax : 1 ≤ s.maxTokens) (httl : 0 ≤ s.ttlMs)
    (hT : T ∈ tokensOf s.entries) (hTne : T ≠ "")
    (hlive : ∀ e ∈ s.entries, e.token = T → now ≤ e.expiresAt)
    (hnd : (tokensOf s.entries).Nodup)
    (hfresh : ∀ j, s.genIdx ≤ j → s.gen j ∉ tokensOf s.entries ∧ s.gen j ≠ "")
    (hinj : ∀ j k, s.genIdx ≤ j → s.genIdx ≤ k → s.gen j = s.gen k → j = k) :
    ∃ T' s', s.exchange (some T) now = (some T', s') ∧ T' ≠ T ∧
      (s'.exchange (some T) now).1 = none ∧
      ∃ T'', (s'.exchange (some T') now).1 = some T'' ∧ T'' ≠ T' := by
  obtain ⟨e, hmem, htok⟩ := mem_tokensOf_iff.1 hT
  have hliv := hlive e hmem htok
  obtain ⟨s', hexch, hgen, hgenIdx, hmaxEq, httlEq, hEmem, htoks⟩ :=
    exchange_hit_spec s T now hmax hTne ⟨e, hmem, hliv, htok⟩ hnd
  have hTfresh : s.gen s.genIdx ≠ T := fun h => (hfresh s.genIdx le_rfl).1 (h ▸ hT)
  refine ⟨s.gen s.genIdx, s', hexch, hTfresh, ?_, ?_⟩
  · apply exchange_fst_eq_none_of_not_mem
    intro hTs
    rcases htoks T hTs with h | h
    · exact hTfresh h.symm
    · exact h.2 rfl
  · have hne' : s.gen s.genIdx ≠ "" := (hfresh s.genIdx le_rfl).2
    have hstep : (s'.exchange (some (s.gen s.genIdx)) now).1 = some (s'.gen s'.genIdx) :=
      exchange_hit_fst s' _ now hne'
        ⟨⟨s.gen s.genIdx, now + s.ttlMs⟩, hEmem, by simpa using httl, rfl⟩
    refine ⟨s'.gen s'.genIdx, hstep, ?_⟩
    rw [hgen, hgenIdx]
    intro h
    have := hinj _ _ (Nat.le_succ _) le_rfl h
    omega

/-- Concrete refresh store used to witness C1: one live token `"a"`, a
length-separated deterministic generator. -/
def refreshFixtureC1 : RefreshSessionStore :=
  { ttlMs := 50, maxTokens := 4, entries := [⟨"a", 100⟩],
    gen := fun i => String.mk (List.replicate (i + 3) 'r'), genIdx := 0 }

theorem refresh_tokens_single_use_witness :
    ∃ T' s', refreshFixtureC1.exchange (some "a") 0 = (some T', s') ∧ T' ≠ "a" ∧
      (s'.exchange (some "a") 0).1 = none ∧
      ∃ T'', (s'.exchange (some T') 0).1 = some T'' ∧ T'' ≠ T' := by
  refine refresh_tokens_single_use refreshFixtureC1 "a" 0 (by decide) (by decide)
    (by decide) (by decide) (by decide) (by decide) ?_ ?_
  · intro j _
    constructor
    · intro hmem
      have h := List.mem_singleton.1 (by simpa [refreshFixtureC1, tokensOf] using hmem)
      have hlen := congrArg String.length h
      rw [show ("a" : String).length = 1 from rfl] at hlen
      simp [refreshFixtureC1] at hlen
    · intro h
      have := congrArg String.length h
      simp [refreshFixtureC1] at this
  · intro j k _ _ h
    have := congrArg String.length h
    simpa [refreshFixtureC1] using this

/-! ### Capacity eviction (C7) -/

/-- Iterated `issue()` at a fixed instant. -/
def issueN (s : RefreshSessionStore) (now : Int) : Nat → RefreshSessionStore
  | 0 => s
  | n + 1 => ((issueN s now n).issue now).2

theorem issue_snd_entries (s : RefreshSessionStore) (now : Int) :
    ((s.issue now).2).entries =
      (if s.maxTokens <
          (pruneEntries now s.entries ++ [(⟨s.gen s.genIdx, now + s.ttlMs⟩ : RefreshEntry)]).length
       then (pruneEntries now s.entries ++ [(⟨s.gen s.genIdx, now + s.ttlMs⟩ : RefreshEntry)]).drop
          ((pruneEntries now s.entries
            ++ [(⟨s.gen s.genIdx, now + s.ttlMs⟩ : RefreshEntry)]).length - s.maxTokens)
       else pruneEntries now s.entries ++ [(⟨s.gen s.genIdx, now + s.ttlMs⟩ : RefreshEntry)]) :=
  rfl

theorem issue_snd_genIdx (s : RefreshSessionStore) (now : Int) :
    ((s.issue now).2).genIdx = s.genIdx + 1 := rfl

theorem issue_snd_gen (s : RefreshSessionStore) (now : Int) :
    ((s.issue now).2).gen = s.gen := rfl

theorem issue_snd_maxTokens (s : RefreshSessionStore) (now : Int) :
    ((s.issue now).2).maxTokens = s.maxTokens := rfl

theorem issue_snd_ttlMs (s : RefreshSessionStore) (now : Int) :
    ((s.issue now).2).ttlMs = s.ttlMs := rfl

theorem drop_range' (s l m : Nat) :
    (List.range' s l).drop m = List.range' (s + m) (l - m) := by
  induction m generalizing s l with
  | zero => simp
  | succ k ih =>
    cases l with
    | zero => simp [List.range']
    | succ l' =>
      rw [List.range'_succ, List.drop_succ_cons, ih]
      congr 1 <;> omega

theorem mem_drop_range_iff {n m j : Nat} :
    j ∈ (List.range n).drop m ↔ m ≤ j ∧ j < n := by
  rw [List.range_eq_range', drop_range', List.mem_range'_1]
  constructor <;> intro h <;> omega

theorem exists_live_pruned_iff (now : Int) (l : List RefreshEntry) (c : String) :
    (∃ e ∈ pruneEntries now l, now ≤ e.expiresAt ∧ e.token = c) ↔
      ∃ e ∈ l, now ≤ e.expiresAt ∧ e.token = c := by
  constructor
  · rintro ⟨e, he, hp⟩
    exact ⟨e, (List.mem_filter.1 he).1, hp⟩
  · rintro ⟨e, he, hl, ht⟩
    exact ⟨e, mem_pruneEntries _ _ _ he hl, hl, ht⟩

theorem exchange_fst_isSome_iff (s : RefreshSessionStore) (c : String) (now : Int)
    (hne : c ≠ "") :
    (s.exchange (some c) now).1.isSome ↔
      ∃ e ∈ s.entries, now ≤ e.expiresAt ∧ e.token = c := by
  rw [← exists_live_pruned_iff now s.entries c, ← consume_isSome_iff]
  simp only [RefreshSessionStore.exchange, if_neg hne]
  cases hcon : consume now c (pruneEntries now s.entries) with
  | none => simp [hcon]
  | some r => simp [hcon]

theorem issueN_spec (M : Nat) (ttl now : Int) (g : Nat → String)
    (hM : 1 ≤ M) (httl : 0 ≤ ttl) (k : Nat) :
    (issueN ⟨ttl, M, [], g, 0⟩ now k).entries
        = ((List.range k).map (fun i => (⟨g i, now + ttl⟩ : RefreshEntry))).drop (k - M)
      ∧ (issueN ⟨ttl, M, [], g, 0⟩ now k).genIdx = k
      ∧ (issueN ⟨ttl, M, [], g, 0⟩ now k).gen = g
      ∧ (issueN ⟨ttl, M, [], g, 0⟩ now k).maxTokens = M
      ∧ (issueN ⟨ttl, M, [], g, 0⟩ now k).ttlMs = ttl := by
  induction k with
  | zero => exact ⟨by simp [issueN], rfl, rfl, rfl, rfl⟩
  | succ k ih =>
    obtain ⟨hE, hidx, hgen, hmax, httlEq⟩ := ih
    have hlive : ∀ e ∈ (issueN ⟨ttl, M, [], g, 0⟩ now k).entries, now ≤ e.expiresAt := by
      intro e he
      rw [hE] at he
      obtain ⟨i, _, rfl⟩ := List.mem_map.1 ((List.drop_sublist _ _).subset he)
      simpa using httl
    have hpr : pruneEntries now (issueN ⟨ttl, M, [], g, 0⟩ now k).entries
        = (issueN ⟨ttl, M, [], g, 0⟩ now k).entries := pruneEntries_eq_self _ _ hlive
    have hlen : (issueN ⟨ttl, M, [], g, 0⟩ now k).entries.length = min k M := by
      rw [hE]
      simp only [List.length_drop, List.length_map, List.length_range]
      omega
    refine ⟨?_, ?_, ?_, ?_, ?_⟩
    · show ((issueN ⟨ttl, M, [], g, 0⟩ now k).issue now).2.entries = _
      rw [issue_snd_entries, hpr, hgen, hidx, httlEq, hmax, hE]
      by_cases hk : k < M
      · have h0 : k - M = 0 := by omega
        have hnov : ¬ (M < (((List.range k).map
            (fun i => (⟨g i, now + ttl⟩ : RefreshEntry))).drop (k - M)
              ++ [(⟨g k, now + ttl⟩ : RefreshEntry)]).length) := by
          simp only [List.length_append, List.length_drop, List.length_map,
            List.length_range, List.length_singleton]
          omega
        rw [if_neg hnov, h0]
        have h1 : k + 1 - M = 0 := by omega
        rw [h1]
        simp [List.range_succ]
      · have hMk : M ≤ k := by omega
        have hlen2 : (((List.range k).map
            (fun i => (⟨g i, now + ttl⟩ : RefreshEntry))).drop (k - M)
              ++ [(⟨g k, now + ttl⟩ : RefreshEntry)]).length = M + 1 := by
          simp only [List.length_append, List.length_drop, List.length_map,
            List.length_range, List.length_singleton]
          omega
        have hov : M < (((List.range k).map
            (fun i => (⟨g i, now + ttl⟩ : RefreshEntry))).drop (k - M)
              ++ [(⟨g k, now + ttl⟩ : RefreshEntry)]).length := by
          rw [hlen2]; omega
        rw [if_pos hov, hlen2]
        have hone : M + 1 - M = 1 := by omega
        rw [hone]
        have hdlen : (1 : Nat) ≤ (((List.range k).map
            (fun i => (⟨g i, now + ttl⟩ : RefreshEntry))).drop (k - M)).length := by
          simp only [List.length_drop, List.length_map, List.length_range]
          omega
        rw [List.drop_append_of_le_length hdlen, List.drop_drop]
        have harith : k - M + 1 = k + 1 - M := by omega
        have hdd : ((List.range k).map
            (fun i => (⟨g i, now + ttl⟩ : RefreshEntry))).drop (k + 1 - M)
              ++ [(⟨g k, now + ttl⟩ : RefreshEntry)]
            = (((List.range k).map (fun i => (⟨g i, now + ttl⟩ : RefreshEntry)))
              ++ [(⟨g k, now + ttl⟩ : RefreshEntry)]).drop (k + 1 - M) := by
          rw [List.drop_append_of_le_length]
          simp only [List.length_map, List.length_range]
          omega
        rw [harith, hdd]
        simp [List.range_succ]
    · show ((issueN ⟨ttl, M, [], g, 0⟩ now k).issue now).2.genIdx = k + 1
      rw [issue_snd_genIdx, hidx]
    · show ((issueN ⟨ttl, M, [], g, 0⟩ now k).issue now).2.gen = g
      rw [issue_snd_gen, hgen]
    · show ((issueN ⟨ttl, M, [], g, 0⟩ now k).issue now).2.maxTokens = M
      rw [issue_snd_maxTokens, hmax]
    · show ((issueN ⟨ttl, M, [], g, 0⟩ now k).issue now).2.ttlMs = ttl
      rw [issue_snd_ttlMs, httlEq]

/-- C7. Capacity eviction is oldest-first: starting from an empty refresh store
with cap `M` and issuing `n > M` tokens (all within their TTL), the store holds
exactly `M` entries, and `exchange(g j)` succeeds precisely for the most recent
`M` tokens (`n - M ≤ j`); the earliest-issued tokens no longer validate.
Eviction is by insertion order, independent of expiry (all entries here are
equally unexpired). -/
theorem refresh_capacity_eviction_oldest_first
    (M n : Nat) (ttl now : Int) (g : Nat → String)
    (hM : 1 ≤ M) (hn : M < n) (httl : 0 ≤ ttl)
    (hginj : ∀ j k, g j = g k → j = k) (hgne : ∀ j, g j ≠ "") :
    (issueN ⟨ttl, M, [], g, 0⟩ now n).count = M
    ∧ ∀ j, j < n →
      (((issueN ⟨ttl, M, [], g, 0⟩ now n).exchange (some (g j)) now).1.isSome
        ↔ n - M ≤ j) := by
  obtain ⟨hE, hidx, hgen, hmax, httlEq⟩ := issueN_spec M ttl now g hM httl n
  have hmem : ∀ e : RefreshEntry, e ∈ (issueN ⟨ttl, M, [], g, 0⟩ now n).entries ↔
      ∃ i, (n - M ≤ i ∧ i < n) ∧ e = ⟨g i, now + ttl⟩ := by
    intro e
    rw [hE, ← List.map_drop]
    constructor
    · intro h
      obtain ⟨i, hi, rfl⟩ := List.mem_map.1 h
      exact ⟨i, mem_drop_range_iff.1 hi, rfl⟩
    · rintro ⟨i, ⟨h1, h2⟩, rfl⟩
      exact List.mem_map.2 ⟨i, mem_drop_range_iff.2 ⟨h1, h2⟩, rfl⟩
  constructor
  · rw [RefreshSessionStore.count, hE]
    simp only [List.length_drop, List.length_map, List.length_range]
    omega
  · intro j hj
    rw [exchange_fst_isSome_iff _ _ _ (hgne j)]
    constructor
    · rintro ⟨e, he, _, htok⟩
      obtain ⟨i, ⟨h1, h2⟩, rfl⟩ := (hmem e).1 he
      have : i = j := hginj i j htok
      omega
    · intro h
      refine ⟨⟨g j, now + ttl⟩, (hmem _).2 ⟨j, ⟨h, hj⟩, rfl⟩, by simpa using httl, rfl⟩

theorem refresh_capacity_eviction_oldest_first_witness :
    (issueN ⟨10, 2, [], fun i => String.mk (List.replicate (i + 1) 'x'), 0⟩ 0 3).count = 2
    ∧ ∀ j, j < 3 →
      (((issueN ⟨10, 2, [], fun i => String.mk (List.replicate (i + 1) 'x'), 0⟩ 0 3).exchange
          (some (String.mk (List.replicate (j + 1) 'x'))) 0).1.isSome
        ↔ 3 - 2 ≤ j) := by
  refine refresh_capacity_eviction_oldest_first 2 3 10 0
    (fun i => String.mk (List.replicate (i + 1) 'x')) (by decide) (by decide) (by decide)
    ?_ ?_
  · intro j k h
    have hlen := congrArg String.length h
    simp at hlen
    exact hlen
  · intro j h
    have hlen := congrArg String.length h
    simp at hlen

/-! ## RotatingTokenStore (`electron/remote/rotating-token-store.ts`) -/

/-- A superseded access token retained inside its grace window. -/
structure PreviousToken where
  token : String
  expiresAt : Int
deriving Repr, DecidableEq

/-- The single current access token. -/
structure CurrentToken where
  token : String
  expiresAt : Int
deriving Repr, DecidableEq

/-- State of `createRotatingTokenStore`: options, current token, retained
previous tokens, and the injected `issueToken` generator with its counter. -/
structure RotatingTokenStore where
  tokenTtlMs : Int
  previousTokenTtlMs : Int
  maxPreviousTokens : Nat
  current : CurrentToken
  previous : List PreviousToken
  gen : Nat → String
  genIdx : Nat

/-- `accepts(candidate)`: falsy candidates rejected; then the current token is
checked first (within its own expiry), then each previous token within its
grace expiry. `timingSafeEqual` after a length check is string equality. -/
def RotatingTokenStore.accepts (s : RotatingTokenStore) (cand : Option String)
    (now : Int) : Bool :=
  match cand with
  | none => false
  | some c =>
    if c = "" then false
    else
      (decide (now ≤ s.current.expiresAt) && (c == s.current.token))
        || s.previous.any (fun p => decide (now ≤ p.expiresAt) && (c == p.token))

/-- `rotate()`: demote the current token to `previous` with a fresh grace
expiry, evict the oldest previous tokens past the cap
(`previous.splice(0, previous.length - maxPreviousTokens)`), then mint a new
current token. -/
def RotatingTokenStore.rotate (s : RotatingTokenStore) (now : Int) : RotatingTokenStore :=
  let pushed := s.previous ++ [⟨s.current.token, now + s.previousTokenTtlMs⟩]
  let kept := if s.maxPreviousTokens < pushed.length then
      pushed.drop (pushed.length - s.maxPreviousTokens)
    else pushed
  { s with previous := kept,
           current := ⟨s.gen s.genIdx, now + s.tokenTtlMs⟩,
           genIdx := s.genIdx + 1 }

/-- `prune()`: drop previous tokens whose grace expiry has passed. -/
def RotatingTokenStore.prune (s : RotatingTokenStore) (now : Int) : RotatingTokenStore :=
  { s with previous := s.previous.filter (fun p => decide (now ≤ p.expiresAt)) }

/-- `previousTokenCount()` accessor. -/
def RotatingTokenStore.previousTokenCount (s : RotatingTokenStore) : Nat :=
  s.previous.length

/-- The `token` getter. -/
def RotatingTokenStore.token (s : RotatingTokenStore) : String :=
  s.current.token

/-- The `tokenExpiresAt` getter. -/
def RotatingTokenStore.tokenExpiresAt (s : RotatingTokenStore) : Int :=
  s.current.expiresAt

theorem accepts_iff (s : RotatingTokenStore) (c : String) (now : Int) :
    s.accepts (some c) now = true ↔
      c ≠ "" ∧ ((now ≤ s.current.expiresAt ∧ c = s.current.token)
        ∨ ∃ p ∈ s.previous, now ≤ p.expiresAt ∧ c = p.token) := by
  unfold RotatingTokenStore.accepts
  by_cases hne : c = ""
  · simp [hne]
  · simp [hne, List.any_eq_true, Bool.or_eq_true, Bool.and_eq_true,
      decide_eq_true_iff, beq_iff_eq]

theorem rotate_previous_eq (s : RotatingTokenStore) (now : Int)
    (hmax : 1 ≤ s.maxPreviousTokens) :
    (s.rotate now).previous =
      s.previous.drop (s.previous.length + 1 - s.maxPreviousTokens)
        ++ [⟨s.current.token, now + s.previousTokenTtlMs⟩] := by
  show (if s.maxPreviousTokens <
        (s.previous ++ [(⟨s.current.token, now + s.previousTokenTtlMs⟩ : PreviousToken)]).length
      then (s.previous ++ [(⟨s.current.token, now + s.previousTokenTtlMs⟩ : PreviousToken)]).drop
        ((s.previous
          ++ [(⟨s.current.token, now + s.previousTokenTtlMs⟩ : PreviousToken)]).length
            - s.maxPreviousTokens)
      else s.previous ++ [(⟨s.current.token, now + s.previousTokenTtlMs⟩ : PreviousToken)]) = _
  by_cases hov : s.maxPreviousTokens <
      (s.previous ++ [(⟨s.current.token, now + s.previousTokenTtlMs⟩ : PreviousToken)]).length
  · rw [if_pos hov]
    have hlen : (s.previous
        ++ [(⟨s.current.token, now + s.previousTokenTtlMs⟩ : PreviousToken)]).length
          - s.maxPreviousTokens ≤ s.previous.length := by
      simp only [List.length_append, List.length_singleton]
      omega
    rw [List.drop_append_of_le_length hlen]
    congr 1
    simp only [List.length_append, List.length_singleton]
  · rw [if_neg hov]
    simp only [List.length_append, List.length_singleton] at hov
    have h0 : s.previous.length + 1 - s.maxPreviousTokens = 0 := by omega
    rw [h0, List.drop_zero]

theorem rotate_current_eq (s : RotatingTokenStore) (now : Int) :
    (s.rotate now).current = ⟨s.gen s.genIdx, now + s.tokenTtlMs⟩ := rfl

theorem prune_current_eq (s : RotatingTokenStore) (now : Int) :
    (s.prune now).current = s.current := rfl

theorem prune_previous_eq (s : RotatingTokenStore) (now : Int) :
    (s.prune now).previous = s.previous.filter (fun p => decide (now ≤ p.expiresAt)) := rfl

/-- Concrete rotating store used for C2: current token `"a"` (TTL 100 ms),
grace 1000 ms, reference cap of 1 retained previous token. -/
def rotFixtureC2 : RotatingTokenStore :=
  { tokenTtlMs := 100, previousTokenTtlMs := 1000, maxPreviousTokens := 1,
    current := ⟨"a", 100⟩, previous := [],
    gen := fun i => String.mk (List.replicate (i + 3) 'b'), genIdx := 0 }

/-- C2 counterexample. With the reference cap of 1 retained previous token,
rotate twice at instant 0: after the first rotation the original token `"a"`
is still accepted (it sits in the previous slot with grace until 1000); it is
therefore accepted immediately before the second `rotate()`, but immediately
after the second rotation — still at instant 0, far inside its grace window —
it is rejected, because the cap evicted it.  This refutes the claim that every
token accepted immediately before a rotation is still accepted immediately
after, for all rotation sequences under the cap of 1. -/
theorem token_rotation_continuity_counterexample :
    ((rotFixtureC2.rotate 0).accepts (some "a") 0 = true)
    ∧ (((rotFixtureC2.rotate 0).rotate 0).accepts (some "a") 0 = false)
    ∧ ((rotFixtureC2.rotate 0).previous = [⟨"a", 1000⟩]) := by
  decide

/-- C2 amended. Token rotation preserves continuity except for cap eviction:
(i) the demoted current token stays accepted for the whole grace window after
`rotate()`; (ii) once the grace window has elapsed and `prune()` has run it is
rejected; (iii) any token accepted immediately before a rotation is still
accepted immediately after, unless it is one of the oldest retained previous
tokens that the `maxPreviousTokens` cap evicts (under the reference cap of 1,
any retained previous token is evicted by the next rotation even inside its
grace window). -/
theorem token_rotation_continuity_amended
    (s : RotatingTokenStore) (now : Int)
    (hmax : 1 ≤ s.maxPreviousTokens) (hgrace : 0 ≤ s.previousTokenTtlMs)
    (hne : s.current.token ≠ "")
    (hfreshc : s.gen s.genIdx ≠ s.current.token)
    (hcurprev : s.current.token ∉ s.previous.map PreviousToken.token) :
    (∀ now', now' ≤ now + s.previousTokenTtlMs →
        (s.rotate now).accepts (some s.current.token) now' = true)
    ∧ (∀ now'', now + s.previousTokenTtlMs < now'' →
        ((s.rotate now).prune now'').accepts (some s.current.token) now'' = false)
    ∧ (∀ c, s.accepts (some c) now = true →
        (s.rotate now).accepts (some c) now = true
        ∨ c ∈ (s.previous.take (s.previous.length + 1 - s.maxPreviousTokens)).map
            PreviousToken.token) := by
  refine ⟨?_, ?_, ?_⟩
  · intro now' hlt
    rw [accepts_iff]
    refine ⟨hne, Or.inr ?_⟩
    refine ⟨⟨s.current.token, now + s.previousTokenTtlMs⟩, ?_, hlt, rfl⟩
    rw [rotate_previous_eq s now hmax]
    exact List.mem_append_right _ (List.mem_singleton.2 rfl)
  · intro now'' hgt
    rw [Bool.eq_false_iff]
    intro hacc
    rw [accepts_iff] at hacc
    rcases hacc.2 with hcur | ⟨p, hp, hplive, hptok⟩
    · rw [prune_current_eq, rotate_current_eq] at hcur
      exact hfreshc hcur.2.symm
    · rw [prune_previous_eq] at hp
      have hp' : p ∈ (s.rotate now).previous := (List.mem_filter.1 hp).1
      rw [rotate_previous_eq s now hmax] at hp'
      rcases List.mem_append.1 hp' with hdrop | hlast
      · have : p.token ∈ s.previous.map PreviousToken.token :=
          List.mem_map_of_mem _ ((List.drop_sublist _ _).subset hdrop)
        exact hcurprev (hptok ▸ this)
      · have hpe : p = ⟨s.current.token, now + s.previousTokenTtlMs⟩ :=
          List.mem_singleton.1 hlast
        refine absurd hplive ?_
        rw [hpe]
        simp only [not_le]
        omega
  · intro c hacc
    rw [accepts_iff] at hacc
    obtain ⟨hcne, hdisj⟩ := hacc
    rcases hdisj with ⟨_, hcur⟩ | ⟨p, hp, hplive, hptok⟩
    · left
      rw [accepts_iff]
      refine ⟨hcne, Or.inr ?_⟩
      refine ⟨⟨s.current.token, now + s.previousTokenTtlMs⟩, ?_,
        by show now ≤ now + s.previousTokenTtlMs; omega, hcur⟩
      rw [rotate_previous_eq s now hmax]
      exact List.mem_append_right _ (List.mem_singleton.2 rfl)
    · have hsplit := List.take_append_drop
        (s.previous.length + 1 - s.maxPreviousTokens) s.previous
      rw [← hsplit] at hp
      rcases List.mem_append.1 hp with htake | hdrop
      · right
        exact hptok ▸ List.mem_map_of_mem _ htake
      · left
        rw [accepts_iff]
        refine ⟨hcne, Or.inr ⟨p, ?_, hplive, hptok⟩⟩
        rw [rotate_previous_eq s now hmax]
        exact List.mem_append_left _ hdrop

theorem token_rotation_continuity_amended_witness :
    ((rotFixtureC2.rotate 0).accepts (some "a") 500 = true)
    ∧ (((rotFixtureC2.rotate 0).prune 2000).accepts (some "a") 2000 = false)
    ∧ ((rotFixtureC2.rotate 0).accepts (some "a") 0 = true
        ∨ "a" ∈ (rotFixtureC2.previous.take
            (rotFixtureC2.previous.length + 1 - rotFixtureC2.maxPreviousTokens)).map
              PreviousToken.token) := by
  obtain ⟨h1, h2, h3⟩ := token_rotation_continuity_amended rotFixtureC2 0 (by decide)
    (by decide) (by decide) (by decide) (by decide)
  exact ⟨h1 500 (by decide), h2 2000 (by decide), h3 "a" (by decide)⟩

/-! ## ConnectionGateway (`electron/remote/server.ts`) -/

/-- One roster entry (`RemoteAgent` of `protocol.ts`). -/
structure RemoteAgent where
  agentId : String
  taskId : String
  taskName : String
  status : String
  exitCode : Option Int
  lastLine : String
deriving Repr, DecidableEq

/-- Fields of a `token` server message. -/
structure TokenPayload where
  token : String
  tokenExpiresAt : Int
  refreshToken : Option String
  url : String
  wifiUrl : Option String
  tailscaleUrl : Option String
deriving Repr, DecidableEq

/-- Connection URLs computed by `currentUrls()`. -/
structure Urls where
  url : String
  wifiUrl : Option String
  tailscaleUrl : Option String
deriving Repr, DecidableEq

/-- Server→client messages (shapes from §6 of the spec / `protocol.ts`). -/
inductive ServerMsg where
  | agents (list : List RemoteAgent)
  | status (agentId : String) (statusStr : String) (exitCode : Option Int)
  | token (payload : TokenPayload)
  | scrollback (agentId : String) (data : String) (cols : Nat)
  | output (agentId : String) (data : String)
deriving Repr, DecidableEq

/-- Client→server messages, already parsed (`parseClientMessage` returning null
is modelled by the absence of a message event, since malformed frames are
silently dropped). -/
inductive ClientMsg where
  | auth (token : String)
  | input (agentId : String) (data : String)
  | resize (agentId : String) (cols rows : Nat)
  | kill (agentId : String)
  | subscribe (agentId : String)
  | unsubscribe (agentId : String)
deriving Repr, DecidableEq

/-- Modelled from the spec: the PTY process supervisor (`electron/ipc/pty.js`)
is an external collaborator whose implementation is not among the verified
sources; §6 fixes its interface (`subscribeToAgent`, `unsubscribeFromAgent`,
`getAgentScrollback`, `getActiveAgentIds`, `getAgentMeta`, `getAgentCols`).
`registry` is its table of installed byte callbacks; each server-side callback
closure is identified by the (connection id, session id) pair it captures,
and callbacks persist until explicitly deregistered. -/
structure PtySupervisor where
  sessionIds : List String
  scrollbackOf : String → Option String
  colsOf : String → Nat
  metaOf : String → Option String
  registry : List (Nat × String)

/-- Modelled from the spec: installing a byte callback for a known session id
succeeds and registers it; an unknown id fails silently (returns false). -/
def PtySupervisor.subscribeToAgent (p : PtySupervisor) (connId : Nat)
    (agentId : String) : Bool × PtySupervisor :=
  if agentId ∈ p.sessionIds then
    (true, { p with registry := p.registry ++ [(connId, agentId)] })
  else (false, p)

/-- Modelled from the spec: deregistering removes the given installed callback
(one occurrence of the identifying pair). -/
def PtySupervisor.unsubscribeFromAgent (p : PtySupervisor) (connId : Nat)
    (agentId : String) : PtySupervisor :=
  { p with registry := p.registry.erase (connId, agentId) }

/-- One persistent connection: the transport flag (`readyState === OPEN`), the
`authed` flag of the connection handler, the `clientSubs` map keys, every
message passed to `ws.send`, and the close code/reason if `ws.close` ran. -/
structure Conn where
  id : Nat
  isOpen : Bool
  authed : Bool
  subs : List String
  sent : List ServerMsg
  closeInfo : Option (Nat × String)
deriving Repr, DecidableEq

/-- The `startRemoteServer` options and network-interface snapshot. -/
structure GatewayConfig where
  port : Nat
  allowExternal : Bool
  wifiIp : Option String
  tailscaleIp : Option String
  getTaskName : String → String
  getAgentStatus : String → String × Option Int × String

/-- Whole-gateway state: both stores, the connection set (`wss.clients` plus
per-connection handler state) and the PTY supervisor. -/
structure Gateway where
  cfg : GatewayConfig
  tokenStore : RotatingTokenStore
  refreshStore : RefreshSessionStore
  conns : List Conn
  pty : PtySupervisor

/-- `currentUrls()`: loopback URL, or external URLs when `allowExternal`. -/
def currentUrls (cfg : GatewayConfig) (token : String) : Urls :=
  let localUrl := "http://127.0.0.1:" ++ toString cfg.port ++ "/?token=" ++ token
  let primaryIp := if cfg.allowExternal then cfg.wifiIp.getD (cfg.tailscaleIp.getD "127.0.0.1")
    else "127.0.0.1"
  let extUrl := "http://" ++ primaryIp ++ ":" ++ toString cfg.port ++ "/?token=" ++ token
  { url := if cfg.allowExternal then extUrl else localUrl,
    wifiUrl := if cfg.allowExternal then
        cfg.wifiIp.map (fun ip => "http://" ++ ip ++ ":" ++ toString cfg.port ++ "/?token=" ++ token)
      else none,
    tailscaleUrl := if cfg.allowExternal then
        cfg.tailscaleIp.map
          (fun ip => "http://" ++ ip ++ ":" ++ toString cfg.port ++ "/?token=" ++ token)
      else none }

/-- `issueTokenPayload(includeRefreshToken)`: current token, its expiry, the
connection URLs, and — only when `includeRefreshToken` — a refresh token
freshly issued from the refresh store. -/
def issueTokenPayload (g : Gateway) (includeRefreshToken : Bool) (now : Int) :
    TokenPayload × Gateway :=
  let urls := currentUrls g.cfg g.tokenStore.token
  if includeRefreshToken then
    let issued := g.refreshStore.issue now
    ({ token := g.tokenStore.token, tokenExpiresAt := g.tokenStore.tokenExpiresAt,
       refreshToken := some issued.1, url := urls.url, wifiUrl := urls.wifiUrl,
       tailscaleUrl := urls.tailscaleUrl },
     { g with refreshStore := issued.2 })
  else
    ({ token := g.tokenStore.token, tokenExpiresAt := g.tokenStore.tokenExpiresAt,
       refreshToken := none, url := urls.url, wifiUrl := urls.wifiUrl,
       tailscaleUrl := urls.tailscaleUrl }, g)

def findConn (g : Gateway) (cid : Nat) : Option Conn :=
  g.conns.find? (fun c => c.id == cid)

def updateConn (g : Gateway) (cid : Nat) (f : Conn → Conn) : Gateway :=
  { g with conns := g.conns.map (fun c => if c.id = cid then f c else c) }

/-- A `ws.send` call on one connection. -/
def appendToConn (g : Gateway) (cid : Nat) (m : ServerMsg) : Gateway :=
  updateConn g cid (fun c => { c with sent := c.sent ++ [m] })

/-- A `ws.close(code, reason)` call. -/
def closeWs (g : Gateway) (cid : Nat) (code : Nat) (reason : String) : Gateway :=
  updateConn g cid (fun c => { c with isOpen := false, closeInfo := some (code, reason) })

/-- The `Map` upsert used by `buildAgentList` (insertion-ordered, in-place
replacement on an existing key, like a JS `Map`). -/
def upsertTask (acc : List (String × RemoteAgent)) (taskId : String) (a : RemoteAgent) :
    List (String × RemoteAgent) :=
  if acc.any (fun kv => kv.1 == taskId) then
    acc.map (fun kv => if kv.1 = taskId then (taskId, a) else kv)
  else acc ++ [(taskId, a)]

/-- `buildAgentList`: fold over the supervisor's live session ids, dedup by
task id, preferring a running agent over an exited one for the same task. -/
def buildAgentList (g : Gateway) : List RemoteAgent :=
  (g.pty.sessionIds.foldl (fun acc agentId =>
    match g.pty.metaOf agentId with
    | none => acc
    | some taskId =>
      let info := g.cfg.getAgentStatus agentId
      let a : RemoteAgent :=
        { agentId := agentId, taskId := taskId, taskName := g.cfg.getTaskName taskId,
          status := info.1, exitCode := info.2.1, lastLine := info.2.2 }
      match (acc.find? (fun kv => kv.1 == taskId)).map Prod.snd with
      | none => upsertTask acc taskId a
      | some existing =>
        if a.status = "running" ∧ existing.status ≠ "running" then upsertTask acc taskId a
        else acc) []).map Prod.snd

def agentsMsg (g : Gateway) : ServerMsg :=
  ServerMsg.agents (buildAgentList g)

/-- `broadcast(msg)`: send to every client of `wss.clients` whose
`readyState` is OPEN — regardless of its `authed` state. -/
def broadcast (g : Gateway) (m : ServerMsg) : Gateway :=
  { g with conns := g.conns.map (fun c =>
      if c.isOpen then { c with sent := c.sent ++ [m] } else c) }

/-- The token message payload constructed inside `rotateToken()` (after the
store has rotated, without a refresh token). -/
def rotateBroadcastPayload (g : Gateway) (now : Int) : TokenPayload :=
  (issueTokenPayload { g with tokenStore := g.tokenStore.rotate now } false now).1

/-- `rotateToken()`: rotate the store, then `sendTokenMessage(client, false)`
to every member of `authedClients` whose channel is still OPEN. -/
def rotateTokenG (g : Gateway) (now : Int) : Gateway :=
  let g1 := { g with tokenStore := g.tokenStore.rotate now }
  let p := (issueTokenPayload g1 false now).1
  { g1 with conns := g1.conns.map (fun c =>
      if c.authed && c.isOpen then { c with sent := c.sent ++ [ServerMsg.token p] } else c) }

/-- The `onPtyEvent("exit")` handler: broadcast the `status` message, then
delete the exited session from every connected client's subscription map —
without deregistering the callback from the supervisor.  (The debounced
roster broadcast it schedules is `exitRosterRefresh`.) -/
def onExitEvent (g : Gateway) (agentId : String) (exitCode : Option Int) : Gateway :=
  let g1 := broadcast g (ServerMsg.status agentId "exited" exitCode)
  { g1 with conns := g1.conns.map (fun c =>
      if c.isOpen then { c with subs := c.subs.erase agentId } else c) }

/-- The debounced `agents` broadcast scheduled 100 ms after an exit. -/
def exitRosterRefresh (g : Gateway) : Gateway :=
  broadcast g (agentsMsg g)

/-- Number of callbacks the supervisor holds for one (connection, session). -/
def regCount (g : Gateway) (cid : Nat) (agentId : String) : Nat :=
  g.pty.registry.count (cid, agentId)

/-- Delivery of one live output event: the supervisor invokes every installed
callback for the session; each callback sends one `output` message if its
captured socket is still OPEN. -/
def deliverOutput (g : Gateway) (agentId : String) (data : String) : Gateway :=
  { g with conns := g.conns.map (fun c =>
      if c.isOpen then
        let n := g.pty.registry.count (c.id, agentId)
        { c with sent := c.sent ++ List.replicate n (ServerMsg.output agentId data) }
      else c) }

/-- `verifyClient`: path check, connection cap of 10, then the handshake-token
check; the rejection status codes of the source. -/
def verifyClient (g : Gateway) (path : String) (handshakeToken : Option String)
    (now : Int) : Option (Nat × String) :=
  if path ≠ "/ws" then some (404, "Not found")
  else if 10 ≤ (g.conns.filter (fun c => c.isOpen)).length then
    some (429, "Too many connections")
  else if ¬ g.tokenStore.accepts handshakeToken now = true then some (401, "Unauthorized")
  else none

/-- The `wss.on("connection")` handler: re-evaluate the handshake token
against the store *at connection time*; when accepted, enter Authenticated at
once and push the roster and a token message carrying a fresh refresh token;
otherwise stay pending with the 10 s auth timer armed. -/
def wsConnect (g : Gateway) (handshakeToken : Option String) (cid : Nat) (now : Int) :
    Gateway :=
  let authed := g.tokenStore.accepts handshakeToken now
  let conn : Conn := { id := cid, isOpen := true, authed := authed, subs := [],
                       sent := [], closeInfo := none }
  let g1 := { g with conns := g.conns ++ [conn] }
  if authed then
    let g2 := appendToConn g1 cid (agentsMsg g1)
    let pr := issueTokenPayload g2 true now
    appendToConn pr.2 cid (ServerMsg.token pr.1)
  else g1

/-- Deadline of the pending-auth timer (`10_000` ms in the source). -/
def authTimeoutMs : Nat := 10000

/-- Firing of the `authTimeout` timer: close a still-unauthenticated open
connection with code 4001 and reason "Auth timeout". -/
def authTimeoutFire (g : Gateway) (cid : Nat) : Gateway :=
  updateConn g cid (fun c =>
    if !c.authed && c.isOpen then
      { c with isOpen := false, closeInfo := some (4001, "Auth timeout") }
    else c)

/-- The `ws.on("close")` handler: drop from `authedClients` (the connection is
no longer open) and deregister every callback still recorded in the
connection's subscription map. -/
def connCloseEvent (g : Gateway) (cid : Nat) : Gateway :=
  match findConn g cid with
  | none => g
  | some c =>
    { g with
        conns := g.conns.map (fun c' =>
          if c'.id = cid then { c' with isOpen := false } else c'),
        pty := { g.pty with registry :=
                   c.subs.foldl (fun reg a => reg.erase (cid, a)) g.pty.registry } }

/-- The `ws.on("message")` handler over an already-parsed client message. -/
def handleMessage (g : Gateway) (cid : Nat) (m : ClientMsg) (now : Int) : Gateway :=
  match findConn g cid with
  | none => g
  | some c =>
    if !c.authed then
      match m with
      | ClientMsg.auth t =>
        if g.tokenStore.accepts (some t) now then
          let g1 := updateConn g cid (fun c => { c with authed := true })
          let g2 := appendToConn g1 cid (agentsMsg g1)
          let pr := issueTokenPayload g2 true now
          appendToConn pr.2 cid (ServerMsg.token pr.1)
        else closeWs g cid 4001 "Unauthorized"
      | _ => closeWs g cid 4001 "Unauthorized"
    else
      match m with
      | ClientMsg.auth _ => g
      | ClientMsg.input _ _ => g
      | ClientMsg.resize _ _ _ => g
      | ClientMsg.kill _ => g
      | ClientMsg.subscribe a =>
        if a ∈ c.subs then g
        else
          let g1 :=
            match g.pty.scrollbackOf a with
            | some sb =>
              if sb ≠ "" then
                appendToConn g cid (ServerMsg.scrollback a sb (g.pty.colsOf a))
              else g
            | none => g
          let r := g1.pty.subscribeToAgent cid a
          let g2 := { g1 with pty := r.2 }
          if r.1 then updateConn g2 cid (fun c => { c with subs := c.subs ++ [a] })
          else g2
      | ClientMsg.unsubscribe a =>
        if a ∈ c.subs then
          let g1 := { g with pty := g.pty.unsubscribeFromAgent cid a }
          updateConn g1 cid (fun c => { c with subs := c.subs.erase a })
        else g

/-- Possible bodies of a `/api/auth/refresh` response. -/
inductive RefreshBody where
  | err (msg : String)
  | ok (token : String) (tokenExpiresAt : Int) (refreshToken : String) (urls : Urls)
deriving Repr, DecidableEq

/-- Outcome of the `/api/auth/refresh` handler: a JSON response, or the
request destroyed mid-stream (`req.destroy()`) with no response written. -/
inductive RefreshOutcome where
  | response (statusCode : Nat) (body : RefreshBody)
  | destroyed
deriving Repr, DecidableEq

/-- Accumulation of the request body chunks: `raw += chunk`, destroying the
request as soon as the accumulated length exceeds 8 KiB. -/
def readBody : List String → String → Option String
  | [], acc => some acc
  | chunk :: rest, acc =>
    let acc' := acc ++ chunk
    if 8 * 1024 < acc'.length then none else readBody rest acc'

/-- The `POST /api/auth/refresh` handler.  `parse` stands for the external
`JSON.parse` plus the `typeof parsed.refreshToken` check: `none` models a
parse exception, `some none` a body whose `refreshToken` is not a string. -/
def handleAuthRefresh (g : Gateway) (parse : String → Option (Option String))
    (chunks : List String) (now : Int) : RefreshOutcome × Gateway :=
  match readBody chunks "" with
  | none => (RefreshOutcome.destroyed, g)
  | some raw =>
    match parse raw with
    | none => (RefreshOutcome.response 400 (RefreshBody.err "invalid json"), g)
    | some rt =>
      let ex := g.refreshStore.exchange rt now
      let g1 := { g with refreshStore := ex.2 }
      match ex.1 with
      | none => (RefreshOutcome.response 401 (RefreshBody.err "unauthorized"), g1)
      | some nextRefreshToken =>
        let g2 := if g1.tokenStore.tokenExpiresAt < now then rotateTokenG g1 now else g1
        let urls := currentUrls g2.cfg g2.tokenStore.token
        (RefreshOutcome.response 200
          (RefreshBody.ok g2.tokenStore.token g2.tokenStore.tokenExpiresAt
            nextRefreshToken urls),
         g2)

/-! ### Shared concrete gateway fixtures -/

/-- Loopback-only configuration with trivial resolvers. -/
def cfgFixture : GatewayConfig :=
  { port := 80, allowExternal := false, wifiIp := none, tailscaleIp := none,
    getTaskName := fun _ => "task", getAgentStatus := fun _ => ("exited", none, "") }

/-- Supervisor owning a single session `"s1"` with no scrollback. -/
def ptyFixture : PtySupervisor :=
  { sessionIds := ["s1"], scrollbackOf := fun _ => none, colsOf := fun _ => 80,
    metaOf := fun _ => none, registry := [] }

/-- Access-token store whose current token `"a"` expires at instant 100. -/
def rotFixtureG : RotatingTokenStore :=
  { tokenTtlMs := 100, previousTokenTtlMs := 1000, maxPreviousTokens := 1,
    current := ⟨"a", 100⟩, previous := [],
    gen := fun i => String.mk (List.replicate (i + 3) 'b'), genIdx := 0 }

/-- Empty refresh store with a deterministic generator. -/
def refreshFixtureG : RefreshSessionStore :=
  { ttlMs := 1000, maxTokens := 4, entries := [],
    gen := fun i => String.mk (List.replicate (i + 3) 'c'), genIdx := 0 }

/-- Freshly started gateway with no connections. -/
def gwFixture : Gateway :=
  { cfg := cfgFixture, tokenStore := rotFixtureG, refreshStore := refreshFixtureG,
    conns := [], pty := ptyFixture }

/-! ### Connection bookkeeping lemmas -/

theorem find?_map_of_pred {α : Type} (l : List α) (F : α → α) (p : α → Bool)
    (h : ∀ a, p (F a) = p a) : (l.map F).find? p = (l.find? p).map F := by
  induction l with
  | nil => rfl
  | cons a t ih =>
    by_cases hp : p a = true
    · simp only [List.map_cons, List.find?, h, hp]
      rfl
    · have hp' : p a = false := by revert hp; cases p a <;> simp
      simp only [List.map_cons, List.find?, h, hp']
      exact ih

theorem find?_append_of_none {α : Type} (l1 l2 : List α) (p : α → Bool)
    (h : ∀ a ∈ l1, p a = false) : (l1 ++ l2).find? p = l2.find? p := by
  induction l1 with
  | nil => rfl
  | cons x t ih =>
    simp only [List.cons_append, List.find?]
    rw [h x (List.mem_cons_self x t)]
    exact ih fun a ha => h a (List.mem_cons_of_mem _ ha)

theorem findConn_updateConn (g : Gateway) (cid : Nat) (f : Conn → Conn)
    (hid : ∀ c, (f c).id = c.id) :
    findConn (updateConn g cid f) cid =
      (findConn g cid).map (fun c => if c.id = cid then f c else c) := by
  unfold findConn updateConn
  exact find?_map_of_pred _ _ _ fun c => by
    by_cases hc : c.id = cid
    · simp [hc, hid]
    · simp [hc]

theorem findConn_id (g : Gateway) (cid : Nat) (c : Conn)
    (h : findConn g cid = some c) : c.id = cid := by
  have := List.find?_some h
  simpa using this

theorem findConn_updateConn_self (g : Gateway) (cid : Nat) (f : Conn → Conn)
    (c : Conn) (hid : ∀ c, (f c).id = c.id) (h : findConn g cid = some c) :
    findConn (updateConn g cid f) cid = some (f c) := by
  rw [findConn_updateConn g cid f hid, h]
  simp [findConn_id g cid c h]

theorem updateConn_pty (g : Gateway) (cid : Nat) (f : Conn → Conn) :
    (updateConn g cid f).pty = g.pty := rfl

theorem appendToConn_pty (g : Gateway) (cid : Nat) (m : ServerMsg) :
    (appendToConn g cid m).pty = g.pty := rfl

/-! ### C4 — broadcast fan-out -/

/-- C4 counterexample.  `verifyClient` accepted the handshake token `"a"` at
instant 50, but by the time the `connection` handler re-checks it (instant
200) the token has expired, so the connection enters the pending
(unauthenticated) state — exactly the situation the source's `authTimeout`
and pre-auth message branch exist for.  The connection is open, in
`wss.clients`, and not authenticated; the exit of session `"s1"` then
`broadcast`s a `status` message over `wss.clients`, and the unauthenticated
connection receives it — refuting the claim that a connection that is not yet
authenticated never receives any broadcast message. -/
theorem broadcast_unauthenticated_counterexample :
    (verifyClient gwFixture "/ws" (some "a") 50 = none)
    ∧ ((findConn (onExitEvent (wsConnect gwFixture (some "a") 0 200) "s1" (some 0)) 0).map
        Conn.authed = some false)
    ∧ ((findConn (onExitEvent (wsConnect gwFixture (some "a") 0 200) "s1" (some 0)) 0).map
        Conn.isOpen = some true)
    ∧ ((findConn (onExitEvent (wsConnect gwFixture (some "a") 0 200) "s1" (some 0)) 0).map
        Conn.sent = some [ServerMsg.status "s1" "exited" (some 0)]) := by
  decide

/-- C4 amended.  Broadcast fan-out (the `agents` roster message and the
`status` exit message both go through `broadcast`) delivers to every
connection whose channel is still open — authenticated or not; every open
connection did pass the handshake token check of `verifyClient`, but one
whose re-check at connection time failed can still be unauthenticated.  Only
the rotation `token` message is restricted to connections in Authenticated
state (and still open). -/
theorem broadcast_fanout_amended (g : Gateway) (m : ServerMsg) (now : Int) :
    List.Forall₂ (fun c c' : Conn =>
        c'.sent = (if c.isOpen then c.sent ++ [m] else c.sent)
          ∧ c'.authed = c.authed ∧ c'.isOpen = c.isOpen)
      g.conns (broadcast g m).conns
    ∧ List.Forall₂ (fun c c' : Conn =>
        c'.sent = (if c.authed && c.isOpen
          then c.sent ++ [ServerMsg.token (rotateBroadcastPayload g now)] else c.sent))
      g.conns (rotateTokenG g now).conns := by
  constructor
  · show List.Forall₂ _ g.conns (g.conns.map _)
    rw [List.forall₂_map_right_iff, List.forall₂_same]
    intro c _
    by_cases h : c.isOpen = true
    · simp [h]
    · have h' : c.isOpen = false := by revert h; cases c.isOpen <;> simp
      simp [h']
  · show List.Forall₂ _ g.conns (g.conns.map _)
    rw [List.forall₂_map_right_iff, List.forall₂_same]
    intro c _
    by_cases h : (c.authed && c.isOpen) = true
    · simp only [h, if_pos]
      simp [rotateBroadcastPayload]
    · have h' : (c.authed && c.isOpen) = false := by
        revert h; cases c.authed <;> cases c.isOpen <;> simp
      simp [h']

/-! ### C5 — auth timeout -/

/-- C5 counterexample.  A connection whose handshake carried no
still-acceptable token is pending; when the 10 s timer fires it is closed
with `(4001, "Auth timeout")`, while a rejected credential (bad auth message)
closes with `(4001, "Unauthorized")`: the numeric close code is the same
4001 in both paths, so the timeout close is *not* distinct from the
rejected-credential close by code — only the reason string differs. -/
theorem auth_timeout_close_code_counterexample :
    ((findConn (authTimeoutFire (wsConnect gwFixture (some "a") 0 200) 0) 0).map
        Conn.closeInfo = some (some (4001, "Auth timeout")))
    ∧ ((findConn (handleMessage (wsConnect gwFixture (some "a") 0 200) 0
          (ClientMsg.auth "bad") 200) 0).map Conn.closeInfo
        = some (some (4001, "Unauthorized")))
    ∧ ((findConn (authTimeoutFire (wsConnect gwFixture (some "a") 0 200) 0) 0).map
          (fun c => c.closeInfo.map Prod.fst)
        = (findConn (handleMessage (wsConnect gwFixture (some "a") 0 200) 0
            (ClientMsg.auth "bad") 200) 0).map (fun c => c.closeInfo.map Prod.fst)) := by
  decide

/-- C5 amended.  A pending (never-authenticated) open connection is closed
when the auth timer fires — it is not left open — with close code 4001 and
reason "Auth timeout"; the configured deadline is 10 s.  The rejected-
credential close uses the *same* numeric code 4001 with reason
"Unauthorized", so the two closes are distinguished only by the reason
string, not by a timeout-specific numeric code. -/
theorem auth_timeout_amended (g : Gateway) (cid : Nat) (c : Conn)
    (hfind : findConn g cid = some c) (hauth : c.authed = false)
    (hopen : c.isOpen = true) :
    ((findConn (authTimeoutFire g cid) cid).map Conn.isOpen = some false)
    ∧ ((findConn (authTimeoutFire g cid) cid).map Conn.closeInfo
        = some (some (4001, "Auth timeout")))
    ∧ authTimeoutMs = 10000
    ∧ ("Auth timeout" : String) ≠ "Unauthorized" := by
  have hstep := findConn_updateConn_self g cid
    (fun c => if !c.authed && c.isOpen then
        { c with isOpen := false, closeInfo := some (4001, "Auth timeout") }
      else c) c
    (fun c => by by_cases h : (!c.authed && c.isOpen) = true <;> simp [h]) hfind
  have hcond : (!c.authed && c.isOpen) = true := by rw [hauth, hopen]; rfl
  unfold authTimeoutFire
  rw [hstep]
  simp only [hcond, if_true]
  refine ⟨by simp, by simp, rfl, by decide⟩

theorem auth_timeout_amended_witness :
    ((findConn (authTimeoutFire (wsConnect gwFixture (some "a") 0 200) 0) 0).map
        Conn.isOpen = some false)
    ∧ ((findConn (authTimeoutFire (wsConnect gwFixture (some "a") 0 200) 0) 0).map
        Conn.closeInfo = some (some (4001, "Auth timeout")))
    ∧ authTimeoutMs = 10000
    ∧ ("Auth timeout" : String) ≠ "Unauthorized" :=
  auth_timeout_amended (wsConnect gwFixture (some "a") 0 200) 0
    { id := 0, isOpen := true, authed := false, subs := [], sent := [], closeInfo := none }
    (by decide) (by decide) (by decide)


/-! ### C6 — credential-message asymmetry -/

theorem findConn_appendToConn (g : Gateway) (cid : Nat) (m : ServerMsg) (c : Conn)
    (h : findConn g cid = some c) :
    findConn (appendToConn g cid m) cid = some { c with sent := c.sent ++ [m] } :=
  findConn_updateConn_self g cid _ c (fun _ => rfl) h

theorem issueTokenPayload_true_fst (g : Gateway) (now : Int) :
    (issueTokenPayload g true now).1 =
      { token := g.tokenStore.token, tokenExpiresAt := g.tokenStore.tokenExpiresAt,
        refreshToken := some (g.refreshStore.issue now).1,
        url := (currentUrls g.cfg g.tokenStore.token).url,
        wifiUrl := (currentUrls g.cfg g.tokenStore.token).wifiUrl,
        tailscaleUrl := (currentUrls g.cfg g.tokenStore.token).tailscaleUrl } := rfl

theorem issueTokenPayload_true_snd (g : Gateway) (now : Int) :
    (issueTokenPayload g true now).2 =
      { g with refreshStore := (g.refreshStore.issue now).2 } := rfl

theorem findConn_set_refreshStore (g : Gateway) (rs : RefreshSessionStore) (cid : Nat) :
    findConn { g with refreshStore := rs } cid = findConn g cid := rfl

/-- C6.  Credential-message asymmetry: the token message pushed to a
connection at the moment it enters Authenticated (here: a handshake whose
token the store accepts at connection time) carries a refresh token freshly
issued from the refresh store, besides the current access token and expiry;
whereas the token message broadcast by `rotateToken()` to the
already-Authenticated connections carries the rotated access token, its
expiry and the connection URLs but **no** refresh token (`refreshToken =
none`), and it goes exactly to the connections that are authenticated and
still open. -/
theorem credential_message_asymmetry
    (g : Gateway) (tok : Option String) (cid : Nat) (now : Int)
    (hacc : g.tokenStore.accepts tok now = true)
    (hfresh : ∀ c ∈ g.conns, c.id ≠ cid) :
    (∃ p : TokenPayload,
      (findConn (wsConnect g tok cid now) cid).map Conn.sent
        = some [ServerMsg.agents (buildAgentList g), ServerMsg.token p]
      ∧ p.refreshToken = some (g.refreshStore.issue now).1
      ∧ p.token = g.tokenStore.token
      ∧ p.tokenExpiresAt = g.tokenStore.tokenExpiresAt)
    ∧ (rotateBroadcastPayload g now).refreshToken = none
    ∧ (rotateBroadcastPayload g now).token = (g.tokenStore.rotate now).token
    ∧ (rotateBroadcastPayload g now).tokenExpiresAt
        = (g.tokenStore.rotate now).tokenExpiresAt
    ∧ (rotateBroadcastPayload g now).url
        = (currentUrls g.cfg (g.tokenStore.rotate now).token).url
    ∧ List.Forall₂ (fun c c' : Conn =>
        c'.sent = (if c.authed && c.isOpen
          then c.sent ++ [ServerMsg.token (rotateBroadcastPayload g now)] else c.sent))
        g.conns (rotateTokenG g now).conns := by
  refine ⟨?_, rfl, rfl, rfl, rfl, ?_⟩
  · have hconnfind :
        findConn { g with conns := g.conns ++ [⟨cid, true, true, [], [], none⟩] } cid
          = some ⟨cid, true, true, [], [], none⟩ := by
      unfold findConn
      rw [find?_append_of_none _ _ _ (fun c hc => by simpa using hfresh c hc)]
      simp [List.find?]
    have h2 := findConn_appendToConn _ cid
      (agentsMsg { g with conns := g.conns ++ [⟨cid, true, true, [], [], none⟩] })
      _ hconnfind
    refine ⟨(issueTokenPayload
      (appendToConn { g with conns := g.conns ++ [⟨cid, true, true, [], [], none⟩] } cid
        (agentsMsg { g with conns := g.conns ++ [⟨cid, true, true, [], [], none⟩] }))
      true now).1, ?_, rfl, rfl, rfl⟩
    show (findConn (wsConnect g tok cid now) cid).map Conn.sent = _
    unfold wsConnect
    rw [hacc]
    simp only [if_true]
    rw [issueTokenPayload_true_snd]
    have h3 := findConn_appendToConn
      { appendToConn { g with conns := g.conns ++ [⟨cid, true, true, [], [], none⟩] } cid
          (agentsMsg { g with conns := g.conns ++ [⟨cid, true, true, [], [], none⟩] }) with
        refreshStore :=
          ((appendToConn { g with conns := g.conns ++ [⟨cid, true, true, [], [], none⟩] } cid
            (agentsMsg { g with conns := g.conns ++ [⟨cid, true, true, [], [], none⟩] })
              ).refreshStore.issue now).2 }
      cid
      (ServerMsg.token (issueTokenPayload
        (appendToConn { g with conns := g.conns ++ [⟨cid, true, true, [], [], none⟩] } cid
          (agentsMsg { g with conns := g.conns ++ [⟨cid, true, true, [], [], none⟩] }))
        true now).1)
      _ (by rw [findConn_set_refreshStore]; exact h2)
    rw [h3]
    rfl
  · show List.Forall₂ _ g.conns (g.conns.map _)
    rw [List.forall₂_map_right_iff, List.forall₂_same]
    intro c _
    by_cases h : (c.authed && c.isOpen) = true
    · simp only [h, if_pos]
      simp [rotateBroadcastPayload]
    · have hfalse : (c.authed && c.isOpen) = false := by
        revert h; cases c.authed <;> cases c.isOpen <;> simp
      simp [hfalse]

theorem credential_message_asymmetry_witness :
    (∃ p : TokenPayload,
      (findConn (wsConnect gwFixture (some "a") 0 50) 0).map Conn.sent
        = some [ServerMsg.agents (buildAgentList gwFixture), ServerMsg.token p]
      ∧ p.refreshToken = some (gwFixture.refreshStore.issue 50).1
      ∧ p.token = gwFixture.tokenStore.token
      ∧ p.tokenExpiresAt = gwFixture.tokenStore.tokenExpiresAt)
    ∧ (rotateBroadcastPayload gwFixture 50).refreshToken = none
    ∧ (rotateBroadcastPayload gwFixture 50).token
        = (gwFixture.tokenStore.rotate 50).token
    ∧ (rotateBroadcastPayload gwFixture 50).tokenExpiresAt
        = (gwFixture.tokenStore.rotate 50).tokenExpiresAt
    ∧ (rotateBroadcastPayload gwFixture 50).url
        = (currentUrls gwFixture.cfg (gwFixture.tokenStore.rotate 50).token).url
    ∧ List.Forall₂ (fun c c' : Conn =>
        c'.sent = (if c.authed && c.isOpen
          then c.sent ++ [ServerMsg.token (rotateBroadcastPayload gwFixture 50)]
          else c.sent))
        gwFixture.conns (rotateTokenG gwFixture 50).conns :=
  credential_message_asymmetry gwFixture (some "a") 0 50 (by decide) (by decide)

/-! ### C8 / C10 — subscribe semantics -/

theorem findConn_set_pty (g : Gateway) (p : PtySupervisor) (cid : Nat) :
    findConn { g with pty := p } cid = findConn g cid := rfl

/-- Scrollback replay sent by one `subscribe`: a single `scrollback` message
when the buffered scrollback is truthy (non-null, non-empty), else nothing. -/
def scrollbackDelta (g : Gateway) (a : String) : List ServerMsg :=
  match g.pty.scrollbackOf a with
  | some sb => if sb ≠ "" then [ServerMsg.scrollback a sb (g.pty.colsOf a)] else []
  | none => []

/-- A `subscribe` for a not-yet-subscribed session: the scrollback replay is
sent first (only when truthy), then the callback installation is attempted —
the supervisor registry gains the pair exactly when it knows the session, and
the subscription map records the session exactly in that case. -/
theorem handleMessage_subscribe_spec
    (g : Gateway) (cid : Nat) (a : String) (c : Conn) (now : Int)
    (hfind : findConn g cid = some c) (hauth : c.authed = true) (hnew : a ∉ c.subs) :
    ∃ c', findConn (handleMessage g cid (ClientMsg.subscribe a) now) cid = some c'
      ∧ c'.sent = c.sent ++ scrollbackDelta g a
      ∧ c'.subs = (if a ∈ g.pty.sessionIds then c.subs ++ [a] else c.subs)
      ∧ c'.authed = true ∧ c'.isOpen = c.isOpen ∧ c'.id = c.id
      ∧ (handleMessage g cid (ClientMsg.subscribe a) now).pty.registry
          = (if a ∈ g.pty.sessionIds then g.pty.registry ++ [(cid, a)] else g.pty.registry)
      ∧ (handleMessage g cid (ClientMsg.subscribe a) now).pty.sessionIds
          = g.pty.sessionIds := by
  unfold handleMessage
  rw [hfind]
  simp only [hauth, Bool.not_true, Bool.false_eq_true, if_false, if_neg hnew]
  rcases hsb : g.pty.scrollbackOf a with _ | sb
  · simp only [hsb]
    unfold PtySupervisor.subscribeToAgent
    by_cases hlive : a ∈ g.pty.sessionIds
    · simp only [if_pos hlive, if_true]
      refine ⟨{ c with subs := c.subs ++ [a] },
        by refine findConn_updateConn_self _ cid _ _ (fun _ => rfl) ?_; exact hfind,
        by simp [scrollbackDelta, hsb], by simp [hlive], hauth, rfl, rfl,
        by simp [hlive, updateConn_pty], by simp [updateConn_pty]⟩
    · simp only [if_neg hlive]
      refine ⟨c, hfind, by simp [scrollbackDelta, hsb], by simp [hlive], hauth, rfl, rfl,
        by simp [hlive], rfl⟩
  · simp only [hsb]
    by_cases hsbne : sb = ""
    · subst hsbne
      simp only [ne_eq, not_true_eq_false, if_false]
      unfold PtySupervisor.subscribeToAgent
      by_cases hlive : a ∈ g.pty.sessionIds
      · simp only [if_pos hlive, if_true]
        refine ⟨{ c with subs := c.subs ++ [a] },
          by refine findConn_updateConn_self _ cid _ _ (fun _ => rfl) ?_; exact hfind,
          by simp [scrollbackDelta, hsb], by simp [hlive], hauth, rfl, rfl,
          by simp [hlive, updateConn_pty], by simp [updateConn_pty]⟩
      · simp only [if_neg hlive]
        refine ⟨c, hfind, by simp [scrollbackDelta, hsb], by simp [hlive], hauth, rfl, rfl,
          by simp [hlive], rfl⟩
    · simp only [ne_eq, hsbne, not_false_eq_true, if_true]
      have h1 := findConn_appendToConn g cid (ServerMsg.scrollback a sb (g.pty.colsOf a))
        c hfind
      unfold PtySupervisor.subscribeToAgent
      by_cases hlive : a ∈ g.pty.sessionIds
      · simp only [appendToConn_pty, if_pos hlive, if_true]
        refine ⟨{ { c with sent := c.sent ++ [ServerMsg.scrollback a sb (g.pty.colsOf a)] }
            with subs := c.subs ++ [a] },
          by refine findConn_updateConn_self _ cid _ _ (fun _ => rfl) ?_; exact h1,
          by simp [scrollbackDelta, hsb, hsbne], by simp [hlive], hauth, rfl, rfl,
          by simp [hlive, updateConn_pty, appendToConn_pty],
          by simp [updateConn_pty, appendToConn_pty]⟩
      · simp only [appendToConn_pty, if_neg hlive]
        refine ⟨{ c with sent := c.sent ++ [ServerMsg.scrollback a sb (g.pty.colsOf a)] },
          h1, by simp [scrollbackDelta, hsb, hsbne], by simp [hlive], hauth, rfl, rfl,
          by simp [hlive, appendToConn_pty], by simp [appendToConn_pty]⟩

/-- A `subscribe` for an already-subscribed session is a strict no-op. -/
theorem handleMessage_subscribe_noop
    (g : Gateway) (cid : Nat) (a : String) (c : Conn) (now : Int)
    (hfind : findConn g cid = some c) (hauth : c.authed = true) (hsub : a ∈ c.subs) :
    handleMessage g cid (ClientMsg.subscribe a) now = g := by
  unfold handleMessage
  rw [hfind]
  simp [hauth, hsub]

theorem findConn_deliverOutput (g : Gateway) (agentId d : String) (cid : Nat) :
    findConn (deliverOutput g agentId d) cid =
      (findConn g cid).map (fun c =>
        if c.isOpen then
          { c with sent := c.sent
              ++ List.replicate (g.pty.registry.count (c.id, agentId)) (ServerMsg.output agentId d) }
        else c) := by
  unfold findConn deliverOutput
  refine find?_map_of_pred _ _ _ fun c => ?_
  by_cases h : c.isOpen = true
  · simp [h]
  · have h2 : c.isOpen = false := by revert h; cases c.isOpen <;> simp
    simp [h2]


/-- Gateway with one authenticated open connection (id 0), no subscriptions. -/
def gwConnected : Gateway :=
  { cfg := cfgFixture, tokenStore := rotFixtureG, refreshStore := refreshFixtureG,
    conns := [⟨0, true, true, [], [], none⟩], pty := ptyFixture }

/-- C8.  Subscribe is idempotent: (1) a `subscribe` for an already-subscribed
session is a strict no-op — no callback installed, no scrollback replayed,
no message sent, the whole gateway state unchanged; (2) a first `subscribe`
to a live session installs exactly one callback with the supervisor
(per-pair registry count goes up by one), a second `subscribe` afterwards
changes nothing, and when the pair had no callback before, one live output
event then produces exactly one `output` message on that connection. -/
theorem subscribe_idempotent
    (g : Gateway) (cid : Nat) (a : String) (c : Conn) (now : Int)
    (hfind : findConn g cid = some c) (hauth : c.authed = true) :
    (a ∈ c.subs → handleMessage g cid (ClientMsg.subscribe a) now = g)
    ∧ (a ∉ c.subs → a ∈ g.pty.sessionIds →
        regCount (handleMessage g cid (ClientMsg.subscribe a) now) cid a
            = regCount g cid a + 1
        ∧ handleMessage (handleMessage g cid (ClientMsg.subscribe a) now) cid
              (ClientMsg.subscribe a) now
            = handleMessage g cid (ClientMsg.subscribe a) now
        ∧ (regCount g cid a = 0 → ∀ d,
            (findConn (deliverOutput (handleMessage g cid (ClientMsg.subscribe a) now) a d)
                cid).map Conn.sent
              = (findConn (handleMessage g cid (ClientMsg.subscribe a) now) cid).map
                  (fun x => if x.isOpen then x.sent ++ [ServerMsg.output a d] else x.sent))) := by
  constructor
  · intro hsub
    exact handleMessage_subscribe_noop g cid a c now hfind hauth hsub
  · intro hnew hlive
    obtain ⟨c', hc'find, hc'sent, hc'subs, hc'auth, hc'open, hc'id, hreg, hsess⟩ :=
      handleMessage_subscribe_spec g cid a c now hfind hauth hnew
    have hcid : c.id = cid := findConn_id g cid c hfind
    refine ⟨?_, ?_, ?_⟩
    · unfold regCount
      rw [hreg, if_pos hlive]
      simp [List.count_append]
    · exact handleMessage_subscribe_noop _ cid a c' now hc'find hc'auth
        (by rw [hc'subs, if_pos hlive]; exact List.mem_append_right _ (List.mem_singleton.2 rfl))
    · intro hzero d
      rw [findConn_deliverOutput, hc'find]
      have hcount : (handleMessage g cid (ClientMsg.subscribe a) now).pty.registry.count
          (c'.id, a) = 1 := by
        rw [hc'id, hcid, hreg, if_pos hlive]
        have : regCount g cid a = g.pty.registry.count (cid, a) := rfl
        rw [List.count_append]
        rw [this] at hzero
        rw [hzero]
        simp
      simp only [Option.map_some', hcount]
      cases hop : c'.isOpen <;> simp [hop]

theorem subscribe_idempotent_witness :
    (("s1" : String) ∈ ([] : List String) →
        handleMessage gwConnected 0 (ClientMsg.subscribe "s1") 50 = gwConnected)
    ∧ (("s1" : String) ∉ ([] : List String) → "s1" ∈ gwConnected.pty.sessionIds →
        regCount (handleMessage gwConnected 0 (ClientMsg.subscribe "s1") 50) 0 "s1"
            = regCount gwConnected 0 "s1" + 1
        ∧ handleMessage (handleMessage gwConnected 0 (ClientMsg.subscribe "s1") 50) 0
              (ClientMsg.subscribe "s1") 50
            = handleMessage gwConnected 0 (ClientMsg.subscribe "s1") 50
        ∧ (regCount gwConnected 0 "s1" = 0 → ∀ d,
            (findConn (deliverOutput
                (handleMessage gwConnected 0 (ClientMsg.subscribe "s1") 50) "s1" d) 0).map
                Conn.sent
              = (findConn (handleMessage gwConnected 0 (ClientMsg.subscribe "s1") 50) 0).map
                  (fun x => if x.isOpen then x.sent ++ [ServerMsg.output "s1" d]
                    else x.sent))) :=
  subscribe_idempotent gwConnected 0 "s1" ⟨0, true, true, [], [], none⟩ 50
    (by decide) (by decide)

/-- C10.  Subscribe with empty or unavailable scrollback: when the buffered
scrollback of the session is `null` or the empty string, the gateway sends
that connection no scrollback message at all (its sent log is unchanged by
the subscribe step), yet still attempts to install the live callback (the
registry gains the pair exactly when the supervisor knows the session); a
scrollback message is sent exactly when the buffered scrollback is non-empty,
and it is appended in the same subscribe step — before any `output` message
the installed callback can later produce. -/
theorem subscribe_scrollback_edge
    (g : Gateway) (cid : Nat) (a : String) (c : Conn) (now : Int)
    (hfind : findConn g cid = some c) (hauth : c.authed = true) (hnew : a ∉ c.subs) :
    ((g.pty.scrollbackOf a = none ∨ g.pty.scrollbackOf a = some "") →
      (findConn (handleMessage g cid (ClientMsg.subscribe a) now) cid).map Conn.sent
          = some c.sent
      ∧ (handleMessage g cid (ClientMsg.subscribe a) now).pty.registry
          = (if a ∈ g.pty.sessionIds then g.pty.registry ++ [(cid, a)]
             else g.pty.registry))
    ∧ (∀ sb, g.pty.scrollbackOf a = some sb → sb ≠ "" →
      (findConn (handleMessage g cid (ClientMsg.subscribe a) now) cid).map Conn.sent
          = some (c.sent ++ [ServerMsg.scrollback a sb (g.pty.colsOf a)])
      ∧ (handleMessage g cid (ClientMsg.subscribe a) now).pty.registry
          = (if a ∈ g.pty.sessionIds then g.pty.registry ++ [(cid, a)]
             else g.pty.registry)) := by
  obtain ⟨c', hc'find, hc'sent, hc'subs, hc'auth, hc'open, hc'id, hreg, hsess⟩ :=
    handleMessage_subscribe_spec g cid a c now hfind hauth hnew
  constructor
  · intro hsb
    refine ⟨?_, hreg⟩
    rw [hc'find]
    have hdelta : scrollbackDelta g a = [] := by
      rcases hsb with h | h <;> simp [scrollbackDelta, h]
    rw [Option.map_some', hc'sent, hdelta, List.append_nil]
  · intro sb hsb hsbne
    refine ⟨?_, hreg⟩
    rw [hc'find]
    have hdelta : scrollbackDelta g a = [ServerMsg.scrollback a sb (g.pty.colsOf a)] := by
      simp [scrollbackDelta, hsb, hsbne]
    rw [Option.map_some', hc'sent, hdelta]

/-- Gateway whose single session has empty-string scrollback. -/
def gwEmptyScrollback : Gateway :=
  { cfg := cfgFixture, tokenStore := rotFixtureG, refreshStore := refreshFixtureG,
    conns := [⟨0, true, true, [], [], none⟩],
    pty := { sessionIds := ["s1"], scrollbackOf := fun _ => some "", colsOf := fun _ => 80,
             metaOf := fun _ => none, registry := [] } }

theorem subscribe_scrollback_edge_witness :
    ((gwEmptyScrollback.pty.scrollbackOf "s1" = none
        ∨ gwEmptyScrollback.pty.scrollbackOf "s1" = some "") →
      (findConn (handleMessage gwEmptyScrollback 0 (ClientMsg.subscribe "s1") 50) 0).map
          Conn.sent = some []
      ∧ (handleMessage gwEmptyScrollback 0 (ClientMsg.subscribe "s1") 50).pty.registry
          = (if "s1" ∈ gwEmptyScrollback.pty.sessionIds
             then gwEmptyScrollback.pty.registry ++ [(0, "s1")]
             else gwEmptyScrollback.pty.registry))
    ∧ (∀ sb, gwEmptyScrollback.pty.scrollbackOf "s1" = some sb → sb ≠ "" →
      (findConn (handleMessage gwEmptyScrollback 0 (ClientMsg.subscribe "s1") 50) 0).map
          Conn.sent = some ([] ++ [ServerMsg.scrollback "s1" sb
            (gwEmptyScrollback.pty.colsOf "s1")])
      ∧ (handleMessage gwEmptyScrollback 0 (ClientMsg.subscribe "s1") 50).pty.registry
          = (if "s1" ∈ gwEmptyScrollback.pty.sessionIds
             then gwEmptyScrollback.pty.registry ++ [(0, "s1")]
             else gwEmptyScrollback.pty.registry)) :=
  subscribe_scrollback_edge gwEmptyScrollback 0 "s1" ⟨0, true, true, [], [], none⟩ 50
    (by decide) (by decide) (by decide)


/-! ### C9 — callback cleanup on disconnect -/

theorem count_foldl_erase_le (cid : Nat) (subs : List String)
    (reg : List (Nat × String)) (q : Nat × String) :
    (subs.foldl (fun r x => r.erase (cid, x)) reg).count q ≤ reg.count q := by
  induction subs generalizing reg with
  | nil => exact le_rfl
  | cons x t ih =>
    simp only [List.foldl_cons]
    exact le_trans (ih (reg.erase (cid, x))) ((List.erase_sublist _ _).count_le q)

theorem count_foldl_erase_mem (cid : Nat) (a : String) (subs : List String)
    (reg : List (Nat × String)) (ha : a ∈ subs) (hle : reg.count (cid, a) ≤ 1) :
    (subs.foldl (fun r x => r.erase (cid, x)) reg).count (cid, a) = 0 := by
  induction subs generalizing reg with
  | nil => cases ha
  | cons x t ih =>
    simp only [List.foldl_cons]
    by_cases hax : a = x
    · subst hax
      have h0 : (reg.erase (cid, a)).count (cid, a) = 0 := by
        rw [List.count_erase_self]
        omega
      have hrest := count_foldl_erase_le cid t (reg.erase (cid, a)) (cid, a)
      omega
    · have hat : a ∈ t := by
        rcases List.mem_cons.1 ha with h | h
        · exact absurd h hax
        · exact h
      have hne : ((cid, a) : Nat × String) ≠ (cid, x) := by
        simp [Prod.ext_iff, hax]
      exact ih (reg.erase (cid, x)) hat (by rw [List.count_erase_of_ne hne]; exact hle)

theorem count_foldl_erase_not_mem (cid : Nat) (a : String) (subs : List String)
    (reg : List (Nat × String)) (ha : a ∉ subs) :
    (subs.foldl (fun r x => r.erase (cid, x)) reg).count (cid, a)
      = reg.count (cid, a) := by
  induction subs generalizing reg with
  | nil => rfl
  | cons x t ih =>
    simp only [List.foldl_cons]
    have hax : a ≠ x := fun h => ha (h ▸ List.mem_cons_self x t)
    rw [ih (reg.erase (cid, x)) (fun h => ha (List.mem_cons_of_mem _ h)),
      List.count_erase_of_ne (by simp [Prod.ext_iff, hax])]

theorem connCloseEvent_registry (g : Gateway) (cid : Nat) (c : Conn)
    (hfind : findConn g cid = some c) :
    (connCloseEvent g cid).pty.registry
      = c.subs.foldl (fun reg x => reg.erase (cid, x)) g.pty.registry := by
  unfold connCloseEvent
  rw [hfind]

/-- C9 counterexample.  Reachable trace: a connection authenticates on its
handshake, subscribes to session `"s1"` (the supervisor registry gains the
callback `(0, "s1")`), the session exits while the connection is open (the
exit handler deletes the map entry but calls no `unsubscribeFromAgent`), and
the connection then closes.  The close handler iterates an already-empty
subscription map, so the callback installed by the connection — and never
unsubscribed by the client — survives the close in the supervisor registry,
refuting the claim that no callback installed by a connection survives its
close, in particular for sessions whose exit occurred while it was open. -/
theorem callback_cleanup_counterexample :
    ((connCloseEvent (onExitEvent (handleMessage (wsConnect gwFixture (some "a") 0 50) 0
          (ClientMsg.subscribe "s1") 50) "s1" (some 0)) 0).pty.registry = [(0, "s1")])
    ∧ ((findConn (connCloseEvent (onExitEvent (handleMessage
          (wsConnect gwFixture (some "a") 0 50) 0
          (ClientMsg.subscribe "s1") 50) "s1" (some 0)) 0) 0).map Conn.isOpen
        = some false) := by
  decide

/-- C9 amended.  When a connection closes, exactly the callbacks still
recorded in its subscription map at close time are deregistered from the
supervisor: every such callback (present at most once, as the guarded
subscribe path guarantees) is removed; a callback whose map entry was deleted
earlier — as the exit handler does for sessions that exited while the
connection was open — is *not* deregistered by the close handler and survives
in the supervisor registry. -/
theorem callback_cleanup_amended (g : Gateway) (cid : Nat) (c : Conn)
    (hfind : findConn g cid = some c) :
    (∀ a ∈ c.subs, regCount g cid a ≤ 1 →
        ((cid, a) ∉ (connCloseEvent g cid).pty.registry))
    ∧ (∀ a, a ∉ c.subs →
        regCount (connCloseEvent g cid) cid a = regCount g cid a) := by
  have hr := connCloseEvent_registry g cid c hfind
  constructor
  · intro a ha hle
    rw [← List.count_eq_zero, hr]
    exact count_foldl_erase_mem cid a c.subs g.pty.registry ha hle
  · intro a ha
    unfold regCount
    rw [hr]
    exact count_foldl_erase_not_mem cid a c.subs g.pty.registry ha

/-- Gateway with one authenticated connection subscribed to `"s1"`, whose
callback is installed in the supervisor registry. -/
def gwSubscribed : Gateway :=
  { cfg := cfgFixture, tokenStore := rotFixtureG, refreshStore := refreshFixtureG,
    conns := [⟨0, true, true, ["s1"], [], none⟩],
    pty := { ptyFixture with registry := [(0, "s1")] } }

theorem callback_cleanup_amended_witness :
    (∀ a ∈ (["s1"] : List String), regCount gwSubscribed 0 a ≤ 1 →
        ((0, a) ∉ (connCloseEvent gwSubscribed 0).pty.registry))
    ∧ (∀ a, a ∉ (["s1"] : List String) →
        regCount (connCloseEvent gwSubscribed 0) 0 a = regCount gwSubscribed 0 a) :=
  callback_cleanup_amended gwSubscribed 0 ⟨0, true, true, ["s1"], [], none⟩ (by decide)


/-! ### C3 — failing refresh requests -/

theorem exchange_miss_spec (s : RefreshSessionStore) (cand : Option String) (now : Int)
    (h : (s.exchange cand now).1 = none) :
    tokensOf (s.exchange cand now).2.entries ⊆ tokensOf s.entries
    ∧ (s.exchange cand now).2.genIdx = s.genIdx := by
  match cand with
  | none => exact ⟨List.Subset.refl _, rfl⟩
  | some c =>
    by_cases hc : c = ""
    · unfold RefreshSessionStore.exchange
      simp only [if_pos hc]
      exact ⟨List.Subset.refl _, by trivial⟩
    · unfold RefreshSessionStore.exchange at h ⊢
      simp only [if_neg hc] at h ⊢
      cases hcon : consume now c (pruneEntries now s.entries) with
      | none =>
        simp only [hcon]
        exact ⟨(tokensOf_sublist (pruneEntries_sublist now s.entries)).subset, by trivial⟩
      | some r =>
        rw [hcon] at h
        simp at h

/-- An 8193-character body chunk, one byte over the 8 KiB cap. -/
def bigChunk : String := String.mk (List.replicate 8193 'x')

/-- C3 counterexample.  An oversized request body does not produce a 400 or
401 response: the handler calls `req.destroy()` as soon as the accumulated
body exceeds 8 KiB, the `end` event never fires, and no response at all is
written — the outcome is `destroyed`, not a `response`. -/
theorem refresh_oversized_counterexample :
    (handleAuthRefresh gwFixture (fun _ => none) [bigChunk] 0).1
      = RefreshOutcome.destroyed := by
  have hlen : (8 * 1024 : Nat) < ("" ++ bigChunk).length := by
    rw [String.length_append]
    have h1 : bigChunk.length = 8193 := by
      show (List.replicate 8193 'x').length = 8193
      rw [List.length_replicate]
    rw [h1]
    decide
  have hover : readBody [bigChunk] "" = none := by
    unfold readBody
    rw [if_pos hlen]
  unfold handleAuthRefresh
  rw [hover]

/-- C3 amended.  Every failing `POST /api/auth/refresh` request issues
nothing: the access-token store is not rotated, no broadcast is sent, the
refresh store gains no token (its surviving tokens are a subset of the old
ones and the token generator is never consulted), and the response body — when
one is written — is an error object carrying no credential.  The status
signal depends on the failure: a missing, invalid or expired refresh token
draws a 401 "unauthorized" response and malformed JSON a 400 "invalid json"
response, but an oversized body destroys the request mid-stream and no
response is written at all. -/
theorem refresh_failure_amended
    (g : Gateway) (parse : String → Option (Option String)) (chunks : List String)
    (now : Int) :
    (readBody chunks "" = none →
        handleAuthRefresh g parse chunks now = (RefreshOutcome.destroyed, g))
    ∧ (∀ raw, readBody chunks "" = some raw → parse raw = none →
        handleAuthRefresh g parse chunks now
          = (RefreshOutcome.response 400 (RefreshBody.err "invalid json"), g))
    ∧ (∀ raw rt, readBody chunks "" = some raw → parse raw = some rt →
        (g.refreshStore.exchange rt now).1 = none →
        (handleAuthRefresh g parse chunks now).1
            = RefreshOutcome.response 401 (RefreshBody.err "unauthorized")
        ∧ (handleAuthRefresh g parse chunks now).2.tokenStore = g.tokenStore
        ∧ (handleAuthRefresh g parse chunks now).2.conns = g.conns
        ∧ tokensOf (handleAuthRefresh g parse chunks now).2.refreshStore.entries
            ⊆ tokensOf g.refreshStore.entries
        ∧ (handleAuthRefresh g parse chunks now).2.refreshStore.genIdx
            = g.refreshStore.genIdx) := by
  refine ⟨?_, ?_, ?_⟩
  · intro hover
    unfold handleAuthRefresh
    rw [hover]
  · intro raw hraw hparse
    unfold handleAuthRefresh
    simp only [hraw, hparse]
  · intro raw rt hraw hparse hex
    obtain ⟨hsub, hidx⟩ := exchange_miss_spec g.refreshStore rt now hex
    unfold handleAuthRefresh
    simp only [hraw, hparse, hex]
    exact ⟨by trivial, by trivial, by trivial, hsub, hidx⟩

theorem refresh_failure_amended_witness :
    (handleAuthRefresh gwFixture (fun _ => none) [bigChunk] 0
        = (RefreshOutcome.destroyed, gwFixture))
    ∧ (handleAuthRefresh gwFixture (fun _ => none) ["x"] 0
        = (RefreshOutcome.response 400 (RefreshBody.err "invalid json"), gwFixture))
    ∧ ((handleAuthRefresh gwFixture (fun _ => some (some "nope")) ["x"] 0).1
          = RefreshOutcome.response 401 (RefreshBody.err "unauthorized")
      ∧ (handleAuthRefresh gwFixture (fun _ => some (some "nope")) ["x"] 0).2.tokenStore
          = gwFixture.tokenStore
      ∧ (handleAuthRefresh gwFixture (fun _ => some (some "nope")) ["x"] 0).2.conns
          = gwFixture.conns
      ∧ tokensOf (handleAuthRefresh gwFixture (fun _ => some (some "nope"))
            ["x"] 0).2.refreshStore.entries
          ⊆ tokensOf gwFixture.refreshStore.entries
      ∧ (handleAuthRefresh gwFixture (fun _ => some (some "nope"))
            ["x"] 0).2.refreshStore.genIdx = gwFixture.refreshStore.genIdx) := by
  refine ⟨?_, ?_, ?_⟩
  · refine (refresh_failure_amended gwFixture (fun _ => none) [bigChunk] 0).1 ?_
    have hlen : (8 * 1024 : Nat) < ("" ++ bigChunk).length := by
      rw [String.length_append]
      have h1 : bigChunk.length = 8193 := by
        show (List.replicate 8193 'x').length = 8193
        rw [List.length_replicate]
      rw [h1]
      decide
    unfold readBody
    rw [if_pos hlen]
  · exact (refresh_failure_amended gwFixture (fun _ => none) ["x"] 0).2.1 "x"
      (by decide) rfl
  · exact (refresh_failure_amended gwFixture (fun _ => some (some "nope")) ["x"] 0).2.2
      "x" (some "nope") (by decide) rfl (by decide)

end ParallelCode
